import Mathlib

/-!
# Verification of the gyro-maze core: LevelGenerator.js and GameEngine.js

This file is a shallow embedding, in Lean 4, of the procedural maze
generator (`src/js/game/LevelGenerator.js`) and of the parts of the game
engine (`src/js/game/GameEngine.js`) that the specification's testable
properties talk about, together with proofs and refutations of those
properties.

Conventions used throughout the embedding:

* All pixel coordinates are stored **doubled** (multiplied by 2) so that
  every coordinate that the JavaScript code manipulates (integers, plus
  the half-integers arising from `cellSize / 2` and
  `offsetX = (width - cols*cellSize)/2`) becomes an integer.  A doc
  comment marks every structure that uses this convention.
* A JavaScript comparison `dist < t` with `dist = Math.sqrt(dx*dx+dy*dy)`
  is embedded as the equivalent squared comparison on doubled
  coordinates: `b*b*(dx2*dx2+dy2*dy2) < 4*a*a*c*c` for a threshold
  `t = (a/b)*c`.  Both sides are nonnegative, so this is exact.
* The linear-congruential generator of `LevelGenerator.random` is
  embedded exactly (`s ↦ (s*9301 + 49297) % 233280`); the JavaScript
  expression `Math.floor(rng() * k)` for an integer `k` equals
  `(s' * k) / 233280` in exact integer arithmetic, which is how each
  draw is embedded.
* Unbounded `while` loops are embedded with explicit fuel; every place
  where this happens is documented at the definition.
-/

namespace GyroMaze

/-! ## The seeded linear-congruential generator (LevelGenerator.js, `random`) -/

/-- One step of the LCG: `this.seed = (this.seed * 9301 + 49297) % 233280`. -/
def lcgNext (s : ℕ) : ℕ := (s * 9301 + 49297) % 233280

/-- `Math.floor(rng() * k)` for a natural `k`: the JS call first steps the
seed, then returns `seed / 233280`; multiplying by `k` and flooring is exact
integer division. Returns the drawn value and the new seed. -/
def drawNat (s k : ℕ) : ℕ × ℕ :=
  let s' := lcgNext s
  (s' * k / 233280, s')

/-- `rng() > c/1000` for a natural `c` (used for the extra-life chance,
where `chanceForLife = min(0.3, 0.05 + levelNum*0.003) = min(300, 50+3n)/1000`). -/
def drawGtPermille (s c : ℕ) : Bool × ℕ :=
  let s' := lcgNext s
  (decide (s' * 1000 > 233280 * c), s')

/-- `rng() > 0.5` (used to pick slow vs fast speed zones). -/
def drawGtHalf (s : ℕ) : Bool × ℕ :=
  let s' := lcgNext s
  (decide (2 * s' > 233280), s')

/-- `rng()` used raw (only for the moving-wall phase `rng()*Math.PI*2`):
we record the stepped seed; the phase is `(2 * seed / 233280) * π`. -/
def drawSeed (s : ℕ) : ℕ × ℕ :=
  let s' := lcgNext s
  (s', s')

/-! ## Difficulty profile (LevelGenerator.js, `getDifficulty`) -/

/-- The difficulty record returned by `getDifficulty`. -/
structure Difficulty where
  name : String
  complexity : ℕ
  holes : ℕ
  sizeBonus : ℕ
deriving DecidableEq

/-- `getDifficulty(levelNum)`: fixed breakpoints at 5/10/20/.../90, with a
final `else` branch for everything above 90. -/
def getDifficulty (levelNum : ℕ) : Difficulty :=
  if levelNum ≤ 5 then ⟨"Easy", 1, 1, 0⟩
  else if levelNum ≤ 10 then ⟨"Easy", 1, 2, 0⟩
  else if levelNum ≤ 20 then ⟨"Easy", 2, 3, 15⟩
  else if levelNum ≤ 30 then ⟨"Medium", 3, 4, 30⟩
  else if levelNum ≤ 40 then ⟨"Medium", 4, 5, 50⟩
  else if levelNum ≤ 50 then ⟨"Hard", 5, 6, 70⟩
  else if levelNum ≤ 60 then ⟨"Hard", 6, 7, 90⟩
  else if levelNum ≤ 70 then ⟨"Expert", 7, 8, 110⟩
  else if levelNum ≤ 80 then ⟨"Expert", 8, 9, 130⟩
  else if levelNum ≤ 90 then ⟨"Master", 9, 10, 150⟩
  else ⟨"Master", 10, 12, 170⟩

/-! ## The maze grid and recursive-backtracking carve
(LevelGenerator.js, `generateMazeGrid`, `getUnvisitedNeighbors`,
`removeWallBetween`) -/

/-- One grid cell: the `visited` generation flag and the four wall flags,
exactly the object literal `{ visited: false, walls: {top,right,bottom,left} }`. -/
structure Cell where
  visited : Bool
  top : Bool
  right : Bool
  bottom : Bool
  left : Bool
deriving DecidableEq

/-- The maze grid, row-major like the JS `grid[row][col]`. -/
abbrev Grid := List (List Cell)

def initCell : Cell := ⟨false, true, true, true, true⟩

/-- The freshly initialised grid: every cell unvisited with all four walls. -/
def initGrid (cols rows : ℕ) : Grid :=
  List.replicate rows (List.replicate cols initCell)

/-- `grid[row][col]` (out-of-range reads return the initial cell; the
generator never reads out of range). -/
def getCell (g : Grid) (r c : ℕ) : Cell :=
  (g.getD r []).getD c initCell

/-- Functional update of `grid[row][col]`. -/
def setCell (g : Grid) (r c : ℕ) (cell : Cell) : Grid :=
  g.set r ((g.getD r []).set c cell)

def modifyCell (g : Grid) (r c : ℕ) (f : Cell → Cell) : Grid :=
  setCell g r c (f (getCell g r c))

/-- `getUnvisitedNeighbors`, preserving the source's probe order
top, right, bottom, left. -/
def unvisitedNeighbors (g : Grid) (r c rows cols : ℕ) : List (ℕ × ℕ) :=
  (if 0 < r ∧ ¬(getCell g (r-1) c).visited then [(r-1, c)] else []) ++
  (if c + 1 < cols ∧ ¬(getCell g r (c+1)).visited then [(r, c+1)] else []) ++
  (if r + 1 < rows ∧ ¬(getCell g (r+1) c).visited then [(r+1, c)] else []) ++
  (if 0 < c ∧ ¬(getCell g r (c-1)).visited then [(r, c-1)] else [])

/-- `removeWallBetween(grid, current, next)`: dispatch on the row/column
difference, clearing the facing wall flags on both cells. -/
def removeWallBetween (g : Grid) (cur nxt : ℕ × ℕ) : Grid :=
  let rowDiff : ℤ := (nxt.1 : ℤ) - cur.1
  let colDiff : ℤ := (nxt.2 : ℤ) - cur.2
  if rowDiff = -1 then
    modifyCell (modifyCell g cur.1 cur.2 (fun a => { a with top := false }))
      nxt.1 nxt.2 (fun a => { a with bottom := false })
  else if rowDiff = 1 then
    modifyCell (modifyCell g cur.1 cur.2 (fun a => { a with bottom := false }))
      nxt.1 nxt.2 (fun a => { a with top := false })
  else if colDiff = 1 then
    modifyCell (modifyCell g cur.1 cur.2 (fun a => { a with right := false }))
      nxt.1 nxt.2 (fun a => { a with left := false })
  else if colDiff = -1 then
    modifyCell (modifyCell g cur.1 cur.2 (fun a => { a with left := false }))
      nxt.1 nxt.2 (fun a => { a with right := false })
  else g

/-- The state threaded through the carve loop: the grid, the explicit
stack of the recursive backtracker, and the LCG seed. -/
structure CarveSt where
  grid : Grid
  stack : List (ℕ × ℕ)
  seed : ℕ

/-- One iteration of the `while (stack.length > 0)` body. -/
def carveStep (rows cols : ℕ) (s : CarveSt) : CarveSt :=
  match s.stack with
  | [] => s
  | cur :: rest =>
    let ns := unvisitedNeighbors s.grid cur.1 cur.2 rows cols
    match ns with
    | [] => { s with stack := rest }
    | _ :: _ =>
      let p := drawNat s.seed ns.length
      let nxt := ns.getD p.1 (0, 0)
      let g1 := removeWallBetween s.grid cur nxt
      let g2 := modifyCell g1 nxt.1 nxt.2 (fun a => { a with visited := true })
      { grid := g2, stack := nxt :: cur :: rest, seed := p.2 }

/-- The carve loop, with fuel.  Each iteration either pops the stack or
visits a fresh cell, so `2*cols*rows + 1` fuel always reaches the empty
stack (proved below); `generateMazeGrid` passes exactly that much. -/
def carveLoop (rows cols : ℕ) : ℕ → CarveSt → CarveSt
  | 0, s => s
  | fuel+1, s =>
    match s.stack with
    | [] => s
    | _ :: _ => carveLoop rows cols fuel (carveStep rows cols s)

/-- One iteration of the extra-passage loop (draws row, col, dir and
knocks out a wall pair when the direction is legal). -/
def extraPassage (rows cols : ℕ) (p : Grid × ℕ) : Grid × ℕ :=
  let q1 := drawNat p.2 rows
  let q2 := drawNat q1.2 cols
  let q3 := drawNat q2.2 4
  let row := q1.1
  let col := q2.1
  let dir := q3.1
  let g := p.1
  let g' :=
    if dir = 0 ∧ 0 < row then
      modifyCell (modifyCell g row col (fun a => { a with top := false }))
        (row-1) col (fun a => { a with bottom := false })
    else if dir = 1 ∧ col + 1 < cols then
      modifyCell (modifyCell g row col (fun a => { a with right := false }))
        row (col+1) (fun a => { a with left := false })
    else if dir = 2 ∧ row + 1 < rows then
      modifyCell (modifyCell g row col (fun a => { a with bottom := false }))
        (row+1) col (fun a => { a with top := false })
    else if dir = 3 ∧ 0 < col then
      modifyCell (modifyCell g row col (fun a => { a with left := false }))
        row (col-1) (fun a => { a with right := false })
    else g
  (g', q3.2)

/-- The grid reached by the backtracking carve alone (before the extra
loop-adding passages): mark the bottom-left cell visited, push it, and run
the `while` loop. -/
def carvedGrid (cols rows : ℕ) (seed : ℕ) : CarveSt :=
  let g0 := modifyCell (initGrid cols rows) (rows-1) 0
    (fun a => { a with visited := true })
  carveLoop rows cols (2*cols*rows+1) ⟨g0, [(rows-1, 0)], seed⟩

/-- `generateMazeGrid(cols, rows, rng)`: the carve followed by
`Math.floor(cols*rows*0.08)` extra passages. -/
def generateMazeGrid (cols rows : ℕ) (seed : ℕ) : Grid × ℕ :=
  let st := carvedGrid cols rows seed
  let extras := cols*rows*8/100
  (List.range extras).foldl (fun p _ => extraPassage rows cols p) (st.grid, st.seed)

/-! ### Graph-theoretic notions about grids

These express what a breadth-first search over open (non-walled) cell
adjacencies computes, together with the invariant machinery for the
carve loop. -/

/-- Cell `(row, col)` lies inside the grid. -/
def inBounds (rows cols : ℕ) (p : ℕ × ℕ) : Prop :=
  p.1 < rows ∧ p.2 < cols

/-- Lattice adjacency: `p` and `q` are in-bounds grid neighbours. -/
def fullAdj (rows cols : ℕ) (p q : ℕ × ℕ) : Prop :=
  inBounds rows cols p ∧ inBounds rows cols q ∧
  ((q.1 + 1 = p.1 ∧ q.2 = p.2) ∨ (p.1 + 1 = q.1 ∧ q.2 = p.2) ∨
   (q.2 = p.2 + 1 ∧ q.1 = p.1) ∨ (p.2 = q.2 + 1 ∧ q.1 = p.1))

/-- Open adjacency: in-bounds grid neighbours whose separating wall is
absent (read off the cell the step leaves, which the generator keeps in
sync with the facing flag of the cell it enters). -/
def adjOpen (g : Grid) (rows cols : ℕ) (p q : ℕ × ℕ) : Prop :=
  inBounds rows cols p ∧ inBounds rows cols q ∧
  ((q.1 + 1 = p.1 ∧ q.2 = p.2 ∧ (getCell g p.1 p.2).top = false) ∨
   (p.1 + 1 = q.1 ∧ q.2 = p.2 ∧ (getCell g p.1 p.2).bottom = false) ∨
   (q.2 = p.2 + 1 ∧ q.1 = p.1 ∧ (getCell g p.1 p.2).right = false) ∨
   (p.2 = q.2 + 1 ∧ q.1 = p.1 ∧ (getCell g p.1 p.2).left = false))

/-- Reachability through open passages: what a breadth-first search over
open cell adjacencies decides. -/
def Reach (g : Grid) (rows cols : ℕ) (p q : ℕ × ℕ) : Prop :=
  Relation.ReflTransGen (adjOpen g rows cols) p q

/-- Every wall of `g'` is already a wall of `g` (walls are only ever
removed, never added). -/
def wallsSubset (g g' : Grid) : Prop :=
  ∀ r c, ((getCell g' r c).top = true → (getCell g r c).top = true) ∧
    ((getCell g' r c).right = true → (getCell g r c).right = true) ∧
    ((getCell g' r c).bottom = true → (getCell g r c).bottom = true) ∧
    ((getCell g' r c).left = true → (getCell g r c).left = true)

/-- Visited flags only ever switch on. -/
def visitedLe (g g' : Grid) : Prop :=
  ∀ r c, (getCell g r c).visited = true → (getCell g' r c).visited = true

/-- The grid is a `rows × cols` table. -/
def gridDims (g : Grid) (rows cols : ℕ) : Prop :=
  g.length = rows ∧ ∀ row ∈ g, row.length = cols

/-- The number of unvisited in-bounds cells — the carve loop's measure. -/
def unvisitedCount (g : Grid) (rows cols : ℕ) : ℕ :=
  ((Finset.range rows ×ˢ Finset.range cols).filter
    (fun p => (getCell g p.1 p.2).visited = false)).card

/-- The invariant maintained by the carve loop. -/
structure CarveInv (rows cols : ℕ) (s : CarveSt) : Prop where
  dims : gridDims s.grid rows cols
  stackBounds : ∀ p ∈ s.stack, inBounds rows cols p
  stackVisited : ∀ p ∈ s.stack, (getCell s.grid p.1 p.2).visited = true
  reach : ∀ p, inBounds rows cols p → (getCell s.grid p.1 p.2).visited = true →
    Reach s.grid rows cols (rows - 1, 0) p
  closedOff : ∀ p, inBounds rows cols p →
    (getCell s.grid p.1 p.2).visited = true → p ∉ s.stack →
    ∀ q, fullAdj rows cols p q → (getCell s.grid q.1 q.2).visited = true

/-! ### Derived level dimensions (named so the claims can speak about
the grid `generateLevel` carves) -/

/-- Canvas width `Math.floor(300 + difficulty.sizeBonus)`. -/
def levelWidth (lvl : ℕ) : ℕ := 300 + (getDifficulty lvl).sizeBonus

/-- Canvas height `Math.floor(420 + difficulty.sizeBonus * 1.2)`
(`sizeBonus` is a multiple of 5, so `*1.2` is exact). -/
def levelHeight (lvl : ℕ) : ℕ := 420 + (getDifficulty lvl).sizeBonus * 6 / 5

/-- `Math.max(50, 70 - difficulty.complexity * 2)`. -/
def levelCellSize (lvl : ℕ) : ℕ := max 50 (70 - (getDifficulty lvl).complexity * 2)

/-- `Math.floor((width - 60) / cellSize)`. -/
def levelCols (lvl : ℕ) : ℕ := (levelWidth lvl - 60) / levelCellSize lvl

/-- `Math.floor((height - 60) / cellSize)`. -/
def levelRows (lvl : ℕ) : ℕ := (levelHeight lvl - 60) / levelCellSize lvl

/-! ## Distance comparisons

The generator compares Euclidean distances against thresholds of the form
`(a/b) * cellSize`.  With doubled coordinates, `dist < (a/b)*c` is exactly
`b*b*((2dx)^2+(2dy)^2) < 4*a*a*c*c`, and similarly for `>`. -/

/-- `Math.sqrt(dx^2+dy^2) < (a/b)*c` on doubled coordinates `dx dy`. -/
def distLt (dx dy a b c : ℤ) : Bool :=
  decide (b*b*(dx*dx + dy*dy) < 4*(a*a)*(c*c))

/-- `Math.sqrt(dx^2+dy^2) > (a/b)*c` on doubled coordinates `dx dy`. -/
def distGt (dx dy a b c : ℤ) : Bool :=
  decide (b*b*(dx*dx + dy*dy) > 4*(a*a)*(c*c))

/-- `Math.round` on a doubled coordinate: the stored value is `x/2`, and JS
rounds halves toward `+∞`, so the rounded value (still doubled) is `x`
when `x` is even and `x+1` when odd. -/
def roundD (x : ℤ) : ℤ := if x % 2 = 0 then x else x + 1

/-! ### Cell-centre notions for the placement proofs

Every candidate position the placement loops draw is the centre of a
grid cell, `offset + col*cellSize + cellSize/2` — in doubled
coordinates `o + 2*i*cs + cs`. -/

/-- The doubled abscissa/ordinate of the centre of cell index `i`. -/
def centerC (o cs : ℤ) (i : ℕ) : ℤ := o + 2*(i:ℤ)*cs + cs

/-- `v` is an (unrounded) cell-centre coordinate. -/
def isCenter (o cs v : ℤ) : Prop := ∃ i : ℕ, v = centerC o cs i

/-- `v` is a `Math.round`ed cell-centre coordinate. -/
def isRCenter (o cs v : ℤ) : Prop := ∃ i : ℕ, v = roundD (centerC o cs i)

/-! ## Wall rectangles (LevelGenerator.js, `mazeToWalls`) -/

/-- An axis-aligned wall rectangle.  All four fields are **doubled**
pixel values. -/
structure Rect where
  x : ℤ
  y : ℤ
  width : ℤ
  height : ℤ
deriving DecidableEq

/-- `mazeToWalls(grid, cols, rows, cellSize, canvasWidth, canvasHeight)`:
outer boundary, per-cell top/left walls and corner posts, and the right
and bottom edge walls.  `cs`, `cw`, `ch` are the plain (undoubled)
`cellSize`, `canvasWidth`, `canvasHeight`; the produced rectangles are
doubled.  The wall thickness is `W = 8` (doubled `16`). -/
def mazeToWalls (g : Grid) (cols rows : ℕ) (cs cw ch : ℤ) : List Rect :=
  let ox : ℤ := cw - cols*cs
  let oy : ℤ := ch - rows*cs
  let boundary : List Rect :=
    [⟨0, 0, 2*cw, 16⟩, ⟨0, 2*(ch - 8), 2*cw, 16⟩,
     ⟨0, 0, 16, 2*ch⟩, ⟨2*(cw - 8), 0, 16, 2*ch⟩]
  let cellWalls : List Rect :=
    (List.range rows).flatMap (fun row =>
      (List.range cols).flatMap (fun col =>
        let cell := getCell g row col
        let x := ox + 2*(col : ℤ)*cs
        let y := oy + 2*(row : ℤ)*cs
        (if cell.top ∧ 0 < row then [Rect.mk x (y - 8) (2*cs) 16] else []) ++
        (if cell.left ∧ 0 < col then [Rect.mk (x - 8) y 16 (2*cs)] else []) ++
        (if (cell.top ∨ cell.left) ∧ 0 < row ∧ 0 < col then
          let topCell := getCell g (row-1) col
          let leftCell := getCell g row (col-1)
          if cell.top ∨ cell.left ∨ topCell.left ∨ leftCell.top then
            [Rect.mk (x - 8) (y - 8) 16 16]
          else []
        else [])))
  let rightEdge : List Rect :=
    (List.range rows).flatMap (fun row =>
      if (getCell g row (cols-1)).right then
        [Rect.mk (ox + 2*(cols : ℤ)*cs - 8) (oy + 2*(row : ℤ)*cs) 16 (2*cs)]
      else [])
  let bottomEdge : List Rect :=
    (List.range cols).flatMap (fun col =>
      if (getCell g (rows-1) col).bottom then
        [Rect.mk (ox + 2*(col : ℤ)*cs) (oy + 2*(rows : ℤ)*cs - 8) (2*cs) 16]
      else [])
  boundary ++ cellWalls ++ rightEdge ++ bottomEdge

/-! ## Entity types of a MazeDefinition (doubled coordinates throughout) -/

/-- A point entity (start, coin, extra life).  `x`, `y` doubled. -/
structure Pt where
  x : ℤ
  y : ℤ
deriving DecidableEq

/-- The goal: centre (doubled) and (undoubled) radius. -/
structure Goal where
  x : ℤ
  y : ℤ
  radius : ℤ
deriving DecidableEq

/-- A hole: centre (doubled) and (undoubled) integer radius `10..13`. -/
structure Hole where
  x : ℤ
  y : ℤ
  radius : ℕ
deriving DecidableEq

/-- A powerup spawn point (centre doubled). -/
structure Powerup where
  x : ℤ
  y : ℤ
  ptype : String
  radius : ℕ
deriving DecidableEq

/-- A bounce pad (centre doubled; `width`/`height` doubled: source 25×10). -/
structure BouncePad where
  x : ℤ
  y : ℤ
  width : ℤ
  height : ℤ
  direction : String
  force : ℕ
deriving DecidableEq

/-- A speed zone (top-left corner doubled; `width`/`height` doubled;
`multiplier` is the source's 0.4 or 2.0 as an exact rational). -/
structure SpeedZone where
  x : ℤ
  y : ℤ
  width : ℤ
  height : ℤ
  ztype : String
  multiplier : ℚ
deriving DecidableEq

/-- A moving-wall descriptor.  `originalX/Y`, `width`, `height` doubled;
`phaseSeed` is the LCG seed value backing the draw `phase = rng()*π*2`,
i.e. the source's phase equals `(2*phaseSeed/233280) * π`. -/
structure MovingWall where
  originalX : ℤ
  originalY : ℤ
  width : ℤ
  height : ℤ
  direction : String
  range : ℕ
  speed : ℕ
  phaseSeed : ℕ
deriving DecidableEq

/-! ## Hole placement (LevelGenerator.js, `generateHoles`) -/

/-- The inner `while (attempts < 30)` rejection loop for one hole.  Each
attempt draws col, row and radius, then rejects candidates too close to
start/goal (`< 1.5*cellSize`) or to an earlier hole (`< cellSize`). -/
def tryHole (cols rows : ℕ) (cs ox oy sx sy gx gy : ℤ) (holes : List Hole) :
    ℕ → ℕ → Option Hole × ℕ
  | 0, seed => (none, seed)
  | att+1, seed =>
    let q1 := drawNat seed cols
    let q2 := drawNat q1.2 rows
    let q3 := drawNat q2.2 4
    let x := ox + 2*(q1.1 : ℤ)*cs + cs
    let y := oy + 2*(q2.1 : ℤ)*cs + cs
    if distLt (x - sx) (y - sy) 3 2 cs || distLt (x - gx) (y - gy) 3 2 cs then
      tryHole cols rows cs ox oy sx sy gx gy holes att q3.2
    else if holes.any (fun h => distLt (x - h.x) (y - h.y) 1 1 cs) then
      tryHole cols rows cs ox oy sx sy gx gy holes att q3.2
    else (some ⟨x, y, 10 + q3.1⟩, q3.2)

/-- `generateHoles`: `difficulty.holes` iterations of the 30-attempt
rejection loop; an exhausted budget simply yields no hole. -/
def generateHoles (cols rows : ℕ) (cs ox oy sx sy gx gy : ℤ)
    (numHoles : ℕ) (seed : ℕ) : List Hole × ℕ :=
  (List.range numHoles).foldl (fun p _ =>
    let r := tryHole cols rows cs ox oy sx sy gx gy p.1 30 p.2
    match r.1 with
    | some h => (p.1 ++ [h], r.2)
    | none => (p.1, r.2)) ([], seed)

/-! ## Fisher–Yates shuffle (used for dead ends and moving-wall candidates) -/

/-- `[arr[i], arr[j]] = [arr[j], arr[i]]`. -/
def listSwap {α : Type} (l : List α) (i j : ℕ) : List α :=
  match l.get? i, l.get? j with
  | some a, some b => (l.set i b).set j a
  | _, _ => l

/-- `for (let i = len-1; i > 0; i--) { j = floor(rng()*(i+1)); swap i j }`. -/
def fisherYates {α : Type} (l : List α) (seed : ℕ) : List α × ℕ :=
  ((List.range (l.length - 1)).reverse.map (· + 1)).foldl
    (fun p i =>
      let q := drawNat p.2 (i + 1)
      (listSwap p.1 i q.1, q.2)) (l, seed)

/-! ## Coin placement (LevelGenerator.js, `generateCoins`) -/

/-- Number of wall flags set on a cell (`Object.values(cell.walls).filter(w => w).length`). -/
def wallCount (a : Cell) : ℕ :=
  (if a.top then 1 else 0) + (if a.right then 1 else 0) +
  (if a.bottom then 1 else 0) + (if a.left then 1 else 0)

/-- The row-major list of dead-end cells (`wallCount ≥ 3`), as (row, col). -/
def deadEndCells (g : Grid) (cols rows : ℕ) : List (ℕ × ℕ) :=
  (List.range rows).flatMap (fun row =>
    (List.range cols).flatMap (fun col =>
      if 3 ≤ wallCount (getCell g row col) then [(row, col)] else []))

/-- The first phase of `generateCoins`: walk the first
`min(numCoins, deadEnds.length)` shuffled dead ends and keep those
strictly farther than `cellSize` from both start and goal, rounding the
stored coordinates. -/
def deadEndCoins (numCoins : ℕ) (cs ox oy sx sy gx gy : ℤ)
    (de : List (ℕ × ℕ)) : List Pt :=
  (de.take (min numCoins de.length)).foldl (fun acc cell =>
    let x := ox + 2*(cell.2 : ℤ)*cs + cs
    let y := oy + 2*(cell.1 : ℤ)*cs + cs
    if distGt (x - sx) (y - sy) 1 1 cs && distGt (x - gx) (y - gy) 1 1 cs then
      acc ++ [Pt.mk (roundD x) (roundD y)]
    else acc) []

/-- The second phase of `generateCoins`: the source's
`while (coins.length < numCoins)` top-up loop.  **The JS loop has no
attempt budget**; it is embedded with explicit fuel.  Each iteration
consumes exactly two LCG draws, so if no acceptable candidate occurs
within one period of the squared LCG the JS loop never terminates; the
fuel passed by `generateCoins` (10^6, far above one period per remaining
coin) makes the embedding agree with the JS code whenever the JS loop
terminates at all. -/
def fillCoins (cols rows : ℕ) (cs ox oy sx sy gx gy : ℤ) (numCoins : ℕ) :
    ℕ → List Pt → ℕ → List Pt × ℕ
  | 0, coins, seed => (coins, seed)
  | fuel+1, coins, seed =>
    if numCoins ≤ coins.length then (coins, seed)
    else
      let q1 := drawNat seed cols
      let q2 := drawNat q1.2 rows
      let x := ox + 2*(q1.1 : ℤ)*cs + cs
      let y := oy + 2*(q2.1 : ℤ)*cs + cs
      if distLt (x - sx) (y - sy) 1 1 cs || distLt (x - gx) (y - gy) 1 1 cs then
        fillCoins cols rows cs ox oy sx sy gx gy numCoins fuel coins q2.2
      else if coins.any (fun c => distLt (x - c.x) (y - c.y) 4 5 cs) then
        fillCoins cols rows cs ox oy sx sy gx gy numCoins fuel coins q2.2
      else
        fillCoins cols rows cs ox oy sx sy gx gy numCoins fuel
          (coins ++ [Pt.mk (roundD x) (roundD y)]) q2.2

/-- Fuel for the unbudgeted coin top-up loop; see `fillCoins`. -/
def coinFillFuel : ℕ := 1000000

/-- `generateCoins`: target `min(3 + ⌊levelNum/12⌋, 10)`, dead ends first
(shuffled by the seeded stream), then the top-up loop. -/
def generateCoins (levelNum cols rows : ℕ) (cs ox oy sx sy gx gy : ℤ)
    (g : Grid) (seed : ℕ) : List Pt × ℕ :=
  let numCoins := min (3 + levelNum / 12) 10
  let p := fisherYates (deadEndCells g cols rows) seed
  let first := deadEndCoins numCoins cs ox oy sx sy gx gy p.1
  fillCoins cols rows cs ox oy sx sy gx gy numCoins coinFillFuel first p.2

/-! ## Extra-life placement (LevelGenerator.js, `generateExtraLives`) -/

/-- `generateExtraLives`: one chance draw against
`min(0.3, 0.05 + levelNum*0.003)`; on success, pick a random qualifying
dead end (far from start/goal, not on a coin or hole). -/
def generateExtraLives (levelNum cols rows : ℕ) (cs ox oy sx sy gx gy : ℤ)
    (g : Grid) (coins : List Pt) (holes : List Hole) (seed : ℕ) :
    List Pt × ℕ :=
  let chance := min 300 (50 + 3 * levelNum)
  let q := drawGtPermille seed chance
  if q.1 then ([], q.2)
  else
    let de : List (ℤ × ℤ) :=
      (List.range rows).flatMap (fun row =>
        (List.range cols).flatMap (fun col =>
          if 3 ≤ wallCount (getCell g row col) then
            let x := ox + 2*(col : ℤ)*cs + cs
            let y := oy + 2*(row : ℤ)*cs + cs
            if distLt (x - sx) (y - sy) 2 1 cs || distLt (x - gx) (y - gy) 2 1 cs then []
            else if coins.any (fun c => distLt (x - c.x) (y - c.y) 1 2 cs) then []
            else if holes.any (fun h => distLt (x - h.x) (y - h.y) 1 2 cs) then []
            else [(x, y)]
          else []))
    match de with
    | [] => ([], q.2)
    | _ :: _ =>
      let q2 := drawNat q.2 de.length
      let spot := de.getD q2.1 (0, 0)
      ([Pt.mk (roundD spot.1) (roundD spot.2)], q2.2)

/-! ## Powerup placement (LevelGenerator.js, `generatePowerups`) -/

/-- The progressively unlocked powerup type roster. -/
def availableTypes (levelNum : ℕ) : List String :=
  (if 6 ≤ levelNum then ["speed_boost", "slow_motion"] else []) ++
  (if 15 ≤ levelNum then ["shield"] else []) ++
  (if 25 ≤ levelNum then ["magnet", "shrink"] else []) ++
  (if 35 ≤ levelNum then ["ghost"] else []) ++
  (if 45 ≤ levelNum then ["time_freeze"] else []) ++
  (if 55 ≤ levelNum then ["double_coins"] else [])

/-- The inner 20-attempt loop for one powerup. -/
def tryPowerup (cols rows : ℕ) (cs ox oy sx sy gx gy : ℤ) (holes : List Hole)
    (types : List String) (pups : List Powerup) :
    ℕ → ℕ → Option Powerup × ℕ
  | 0, seed => (none, seed)
  | att+1, seed =>
    let q1 := drawNat seed cols
    let q2 := drawNat q1.2 rows
    let x := ox + 2*(q1.1 : ℤ)*cs + cs
    let y := oy + 2*(q2.1 : ℤ)*cs + cs
    if distLt (x - sx) (y - sy) 2 1 cs || distLt (x - gx) (y - gy) 1 1 cs then
      tryPowerup cols rows cs ox oy sx sy gx gy holes types pups att q2.2
    else if holes.any (fun hh => distLt (x - hh.x) (y - hh.y) 1 1 cs) then
      tryPowerup cols rows cs ox oy sx sy gx gy holes types pups att q2.2
    else if pups.any (fun p => distLt (x - p.x) (y - p.y) 3 2 cs) then
      tryPowerup cols rows cs ox oy sx sy gx gy holes types pups att q2.2
    else
      let q3 := drawNat q2.2 types.length
      (some ⟨roundD x, roundD y, types.getD q3.1 "", 14⟩, q3.2)

/-- `generatePowerups`: nothing below level 6; otherwise
`min(3, ⌊(levelNum-5)/15⌋ + 1)` rounds of the 20-attempt loop. -/
def generatePowerups (levelNum cols rows : ℕ) (cs ox oy sx sy gx gy : ℤ)
    (holes : List Hole) (seed : ℕ) : List Powerup × ℕ :=
  if levelNum < 6 then ([], seed)
  else
    let types := availableTypes levelNum
    let num := min 3 ((levelNum - 5) / 15 + 1)
    (List.range num).foldl (fun p _ =>
      let r := tryPowerup cols rows cs ox oy sx sy gx gy holes types p.1 20 p.2
      match r.1 with
      | some pu => (p.1 ++ [pu], r.2)
      | none => (p.1, r.2)) ([], seed)

/-! ## Bounce-pad placement (LevelGenerator.js, `generateBouncePads`) -/

def padDirections : List String := ["up", "down", "left", "right"]

/-- The inner 20-attempt loop for one bounce pad. -/
def tryBouncePad (cols rows : ℕ) (cs ox oy sx sy gx gy : ℤ) (holes : List Hole)
    (pads : List BouncePad) : ℕ → ℕ → Option BouncePad × ℕ
  | 0, seed => (none, seed)
  | att+1, seed =>
    let q1 := drawNat seed cols
    let q2 := drawNat q1.2 rows
    let x := ox + 2*(q1.1 : ℤ)*cs + cs
    let y := oy + 2*(q2.1 : ℤ)*cs + cs
    if distLt (x - sx) (y - sy) 3 2 cs || distLt (x - gx) (y - gy) 3 2 cs then
      tryBouncePad cols rows cs ox oy sx sy gx gy holes pads att q2.2
    else if holes.any (fun hh => distLt (x - hh.x) (y - hh.y) 4 5 cs) then
      tryBouncePad cols rows cs ox oy sx sy gx gy holes pads att q2.2
    else if pads.any (fun p => distLt (x - p.x) (y - p.y) 2 1 cs) then
      tryBouncePad cols rows cs ox oy sx sy gx gy holes pads att q2.2
    else
      let q3 := drawNat q2.2 padDirections.length
      let q4 := drawNat q3.2 6
      (some ⟨roundD x, roundD y, 50, 20, padDirections.getD q3.1 "", 12 + q4.1⟩, q4.2)

/-- `generateBouncePads`: nothing below level 11; otherwise
`min(4, ⌊(levelNum-10)/12⌋ + 1)` rounds of the 20-attempt loop. -/
def generateBouncePads (levelNum cols rows : ℕ) (cs ox oy sx sy gx gy : ℤ)
    (holes : List Hole) (seed : ℕ) : List BouncePad × ℕ :=
  if levelNum < 11 then ([], seed)
  else
    let num := min 4 ((levelNum - 10) / 12 + 1)
    (List.range num).foldl (fun p _ =>
      let r := tryBouncePad cols rows cs ox oy sx sy gx gy holes p.1 20 p.2
      match r.1 with
      | some pd => (p.1 ++ [pd], r.2)
      | none => (p.1, r.2)) ([], seed)

/-! ## Speed-zone placement (LevelGenerator.js, `generateSpeedZones`) -/

/-- The inner 15-attempt loop for one speed zone. -/
def trySpeedZone (cols rows : ℕ) (cs ox oy : ℤ) (zones : List SpeedZone) :
    ℕ → ℕ → Option SpeedZone × ℕ
  | 0, seed => (none, seed)
  | att+1, seed =>
    let q1 := drawNat seed (cols - 1)
    let q2 := drawNat q1.2 (rows - 1)
    let x := ox + 2*(q1.1 : ℤ)*cs
    let y := oy + 2*(q2.1 : ℤ)*cs
    if zones.any (fun z => distLt (x - z.x) (y - z.y) 2 1 cs) then
      trySpeedZone cols rows cs ox oy zones att q2.2
    else
      let q3 := drawGtHalf q2.2
      (some ⟨roundD x, roundD y, 2*cs, 2*cs,
             if q3.1 then "slow" else "fast",
             if q3.1 then (2 : ℚ)/5 else 2⟩, q3.2)

/-- `generateSpeedZones`: nothing below level 16; otherwise
`min(3, ⌊(levelNum-15)/15⌋ + 1)` rounds of the 15-attempt loop. -/
def generateSpeedZones (levelNum cols rows : ℕ) (cs ox oy : ℤ) (seed : ℕ) :
    List SpeedZone × ℕ :=
  if levelNum < 16 then ([], seed)
  else
    let num := min 3 ((levelNum - 15) / 15 + 1)
    (List.range num).foldl (fun p _ =>
      let r := trySpeedZone cols rows cs ox oy p.1 15 p.2
      match r.1 with
      | some z => (p.1 ++ [z], r.2)
      | none => (p.1, r.2)) ([], seed)

/-! ## Moving-wall selection (LevelGenerator.js, `generateMovingWalls`) -/

/-- `generateMovingWalls`: nothing below level 21; otherwise shuffle the
walls wider or taller than 30 (doubled 60) and convert the first
`min(min(3, ⌊(levelNum-20)/15⌋+1), candidates.length)` into oscillators. -/
def generateMovingWalls (levelNum : ℕ) (walls : List Rect) (seed : ℕ) :
    List MovingWall × ℕ :=
  if levelNum < 21 then ([], seed)
  else
    let num := min 3 ((levelNum - 20) / 15 + 1)
    let cand := walls.filter (fun w => 60 < w.width ∨ 60 < w.height)
    match cand with
    | [] => ([], seed)
    | _ :: _ =>
      let p := fisherYates cand seed
      (p.1.take (min num p.1.length)).foldl (fun acc w =>
        let q1 := drawNat acc.2 30
        let q2 := drawNat q1.2 30
        let q3 := drawSeed q2.2
        (acc.1 ++ [MovingWall.mk w.x w.y w.width w.height
          (if w.height < w.width then "vertical" else "horizontal")
          (30 + q1.1) (20 + q2.1) q3.1], q3.2)) ([], p.2)

/-! ## Level names (LevelGenerator.js, `getLevelName`) -/

def levelNames : List String :=
  ["First Steps", "Getting Started", "Easy Does It", "Rolling Along", "Simple Path",
   "Learning Curve", "Basic Maze", "Warm Up", "Foundation", "Ready Set Go",
   "The Journey", "Winding Road", "Twist & Turn", "Maze Runner", "Path Finder",
   "Navigate", "Explore", "Discovery", "Adventure", "Challenge Ahead",
   "Tight Squeeze", "Narrow Passage", "Compact", "Dense Path", "Crowded",
   "Complex Route", "Intricate", "Detailed", "Elaborate", "Sophisticated",
   "Precision", "Careful Steps", "Delicate", "Fine Control", "Steady",
   "Concentration", "Focus Zone", "Attention", "Mindful", "Deliberate",
   "Danger Zone", "Risk Taker", "Perilous", "Hazardous", "Treacherous",
   "Risky Business", "High Stakes", "Edge Walker", "Cliff Hanger", "Survivor",
   "Labyrinth", "Deep Maze", "Lost Ways", "Confusion", "Bewildering",
   "Perplexing", "Enigma", "Mystery", "Puzzle Box", "Riddle",
   "Time Trial", "Speed Demon", "Quick Reflex", "Fast Lane", "Rapid",
   "Swift", "Velocity", "Momentum", "Acceleration", "Turbo",
   "Ghost Walk", "Phase Shift", "Ethereal", "Phantom", "Spirit",
   "Spectral", "Astral", "Dimensional", "Void Walker", "Shadow",
   "Magnetic", "Attraction", "Pull Force", "Gravity Well", "Force Field",
   "Energy", "Power Core", "Dynamo", "Generator", "Reactor",
   "Ultimate", "Supreme", "Pinnacle", "Apex", "Zenith",
   "Summit", "Crown", "Throne", "Glory", "Legendary"]

/-- `getLevelName(levelNum)` with its `Level N` fallback. -/
def getLevelName (levelNum : ℕ) : String :=
  match levelNames.get? (levelNum - 1) with
  | some s => s
  | none => "Level " ++ toString levelNum

/-! ## The full MazeDefinition and `generateLevel` -/

/-- The value object returned by `generateLevel` (coordinates doubled as
described at the top of the file). -/
structure MazeDef where
  id : ℕ
  name : String
  difficulty : String
  width : ℕ
  height : ℕ
  ballRadius : ℕ
  start : Pt
  goal : Goal
  walls : List Rect
  holes : List Hole
  coins : List Pt
  extraLives : List Pt
  powerups : List Powerup
  bouncePads : List BouncePad
  speedZones : List SpeedZone
  movingWalls : List MovingWall
  starTimes : List ℤ
  generated : Bool
deriving DecidableEq

/-- `generateLevel(levelNum)` as an operation on a `LevelGenerator`
instance: the instance state is the current LCG seed (`this.seed`), and
the method **overwrites** it with `levelNum * 7919` before any draw
(`this.random(levelSeed)` assigns `this.seed = levelSeed`).  Returns the
definition together with the instance's final seed. -/
def generateLevelFrom (instanceSeed : ℕ) (levelNum : ℕ) : MazeDef × ℕ :=
  let _ := instanceSeed
  let seed0 := levelNum * 7919
  let diff := getDifficulty levelNum
  let width := levelWidth levelNum
  let height := levelHeight levelNum
  let cs : ℕ := levelCellSize levelNum
  let cols := levelCols levelNum
  let rows := levelRows levelNum
  let mz := generateMazeGrid cols rows seed0
  let csZ : ℤ := cs
  let walls := mazeToWalls mz.1 cols rows csZ width height
  let ballRadius := max 6 (12 - levelNum / 20)
  let ox : ℤ := (width : ℤ) - cols * csZ
  let oy : ℤ := (height : ℤ) - rows * csZ
  let sx := ox + csZ
  let sy := oy + 2*((rows : ℤ) - 1)*csZ + csZ
  let gx := ox + 2*((cols : ℤ) - 1)*csZ + csZ
  let gy := oy + csZ
  let goalRadius : ℤ := max 14 (22 - (levelNum : ℤ) / 25)
  let ph := generateHoles cols rows csZ ox oy sx sy gx gy diff.holes mz.2
  let pc := generateCoins levelNum cols rows csZ ox oy sx sy gx gy mz.1 ph.2
  let pl := generateExtraLives levelNum cols rows csZ ox oy sx sy gx gy mz.1 pc.1 ph.1 pc.2
  let pp := generatePowerups levelNum cols rows csZ ox oy sx sy gx gy ph.1 pl.2
  let pb := generateBouncePads levelNum cols rows csZ ox oy sx sy gx gy ph.1 pp.2
  let pz := generateSpeedZones levelNum cols rows csZ ox oy pb.2
  let pm := generateMovingWalls levelNum walls pz.2
  let base : ℤ := 12000 + levelNum * 600 + diff.complexity * 1500
  let starTimes : List ℤ := [base, base * 13 / 20, base * 2 / 5]
  (⟨levelNum, getLevelName levelNum, diff.name, width, height, ballRadius,
    ⟨sx, sy⟩, ⟨gx, gy, goalRadius⟩, walls, ph.1, pc.1, pl.1, pp.1, pb.1,
    pz.1, pm.1, starTimes, true⟩, pm.2)

/-- `generateLevel` on a fresh `LevelGenerator` (constructor seed 12345). -/
def generateLevel (levelNum : ℕ) : MazeDef :=
  (generateLevelFrom 12345 levelNum).1

/-- The star-time base `12000 + levelNum*600 + complexity*1500`. -/
def levelBase (levelNum : ℕ) : ℤ :=
  12000 + levelNum * 600 + (getDifficulty levelNum).complexity * 1500

/-! ## Placement-validity notions (for the C9 analysis) -/

/-- Squared distance between two points, on doubled coordinates. -/
def sep2 (x1 y1 x2 y2 : ℤ) : ℤ := (x1 - x2)*(x1 - x2) + (y1 - y2)*(y1 - y2)

/-- The facts maintained for the hole list: every hole is at least
`1.5*cellSize` from the start, and holes are pairwise at least
`1*cellSize` apart (doubled-coordinate squared bounds). -/
def holeFacts (cs sx sy : ℤ) (l : List Hole) : Prop :=
  (∀ h ∈ l, 9*(cs*cs) ≤ sep2 h.x h.y sx sy) ∧
  l.Pairwise (fun a b => 4*(cs*cs) ≤ sep2 a.x a.y b.x b.y)

/-- The facts maintained for the coin list: every coin is a rounded cell
centre at least `cellSize - 1/2` from the start, and coins are pairwise
at least `0.8*cellSize` apart. -/
def coinFacts (ox oy cs sx sy : ℤ) (l : List Pt) : Prop :=
  (∀ p ∈ l, isRCenter ox cs p.x ∧ isRCenter oy cs p.y ∧
    (2*cs-1)*(2*cs-1) ≤ sep2 p.x p.y sx sy) ∧
  l.Pairwise (fun a b => 64*(cs*cs) ≤ 25 * sep2 a.x a.y b.x b.y)

/-- The facts maintained for the powerup list: rounded cell centres at
least `1.5*cellSize` from the start and pairwise `1.5*cellSize` apart. -/
def pupFacts (ox oy cs sx sy : ℤ) (l : List Powerup) : Prop :=
  (∀ p ∈ l, isRCenter ox cs p.x ∧ isRCenter oy cs p.y ∧
    9*(cs*cs) ≤ sep2 p.x p.y sx sy) ∧
  l.Pairwise (fun a b => 9*(cs*cs) ≤ sep2 a.x a.y b.x b.y)

/-- The facts maintained for the bounce-pad list: rounded cell centres at
least `1.5*cellSize` from the start and pairwise `2*cellSize` apart. -/
def padFacts (ox oy cs sx sy : ℤ) (l : List BouncePad) : Prop :=
  (∀ p ∈ l, isRCenter ox cs p.x ∧ isRCenter oy cs p.y ∧
    9*(cs*cs) ≤ sep2 p.x p.y sx sy) ∧
  l.Pairwise (fun a b => 16*(cs*cs) ≤ sep2 a.x a.y b.x b.y)

/-!
# GameEngine.js

The engine works on double-precision floats; the embedding uses `ℝ` (with
`Real.rpow`, `Real.sqrt`, `Real.sin` for `Math.pow`, `Math.sqrt`,
`Math.sin`).  Engine-side coordinates are **plain** pixel values, not
doubled.  External collaborators are modelled as explicit arguments: the
tilt vector and sensitivity (InputManager/StorageManager), the
`getActiveEffects().slowMotion` flag (UpgradeManager), the current
wall-clock instant (`performance.now()` / `Date.now()`), and the
`Math.random()` results consumed by a frame.
-/

namespace Engine

/-- A point of the loaded level. -/
structure EPoint where
  x : ℝ
  y : ℝ

/-- The goal circle. -/
structure EGoal where
  x : ℝ
  y : ℝ
  radius : ℝ

/-- A wall rectangle. -/
structure ERect where
  x : ℝ
  y : ℝ
  width : ℝ
  height : ℝ

/-- A hole circle. -/
structure EHole where
  x : ℝ
  y : ℝ
  radius : ℝ

/-- A powerup spawn with its runtime `collected` flag. -/
structure EPowerup where
  x : ℝ
  y : ℝ
  ptype : String
  radius : ℝ
  collected : Bool

/-- A bounce pad. -/
structure EPad where
  x : ℝ
  y : ℝ
  width : ℝ
  height : ℝ
  direction : String
  force : ℝ

/-- A speed zone. -/
structure EZone where
  x : ℝ
  y : ℝ
  width : ℝ
  height : ℝ
  ztype : String

/-- A moving wall with its runtime current position.  `horizontal` is
`direction === 'horizontal'`. -/
structure EMovingWall where
  originalX : ℝ
  originalY : ℝ
  width : ℝ
  height : ℝ
  horizontal : Bool
  range : ℝ
  speed : ℝ
  phase : ℝ
  currentX : ℝ
  currentY : ℝ

/-- A level as the engine consumes it.  Fields that `loadLevel`,
`resetBall` and the collision checks read without a guard in the source
(`start`, `goal`) are `Option`s so that a missing field can be observed;
fields always read through `|| []` are plain lists. -/
structure EngineLevel where
  start : Option EPoint
  goal : Option EGoal
  walls : List ERect
  holes : List EHole
  coins : List EPoint
  extraLives : List EPoint
  powerups : List EPowerup
  bouncePads : List EPad
  speedZones : List EZone
  movingWalls : List EMovingWall
  ballRadius : Option ℝ
  width : ℝ
  height : ℝ
  starTimes : List ℤ

/-- The engine's ball record. -/
structure Ball where
  x : ℝ
  y : ℝ
  vx : ℝ
  vy : ℝ
  radius : ℝ
  friction : ℝ
  bounce : ℝ

/-- An active powerup effect: its wall-clock expiry instant (the pending
`setTimeout` deadline) and its `active` flag. -/
structure ActiveEffect where
  ptype : String
  endTime : ℝ
  active : Bool

/-- The mutable engine state relevant to the verified claims (rendering
state — particles, trail, canvas scale — is cosmetic and omitted). -/
structure EngineState where
  isRunning : Bool
  isPaused : Bool
  timerRunning : Bool
  ball : Ball
  timeScale : ℝ
  timeWarpActive : Bool
  timeWarpUsed : Bool
  startTime : ℝ
  elapsedTime : ℝ
  lastFrameTime : ℝ
  currentLevel : Option EngineLevel
  levelCoins : List EPoint
  levelExtraLives : List EPoint
  levelPowerups : List EPowerup
  levelBouncePads : List EPad
  levelSpeedZones : List EZone
  levelMovingWalls : List EMovingWall
  activePowerups : List ActiveEffect
  coinsCollectedThisLevel : ℕ

/-- Physics constants of the constructor: `gravity = 0.5`, `maxSpeed = 12`,
ball `friction = 0.98`, `bounce = 0.75`. -/
noncomputable def gravity : ℝ := 1/2

noncomputable def maxSpeed : ℝ := 12

noncomputable def initBall : Ball :=
  { x := 0, y := 0, vx := 0, vy := 0, radius := 15,
    friction := 98/100, bounce := 75/100 }

/-- The state right after the constructor runs. -/
noncomputable def initEngineState : EngineState :=
  { isRunning := false, isPaused := false, timerRunning := false,
    ball := initBall, timeScale := 1, timeWarpActive := false,
    timeWarpUsed := false, startTime := 0, elapsedTime := 0,
    lastFrameTime := 0, currentLevel := none, levelCoins := [],
    levelExtraLives := [], levelPowerups := [], levelBouncePads := [],
    levelSpeedZones := [], levelMovingWalls := [], activePowerups := [],
    coinsCollectedThisLevel := 0 }

/-- `resetBall()`.  Returns early when no level is loaded; **throws**
(`Except.error`) when the loaded level has no `start`, because the source
dereferences `start.x` unguarded. -/
noncomputable def resetBall (s : EngineState) : Except Unit EngineState :=
  match s.currentLevel with
  | none => .ok s
  | some lvl =>
    match lvl.start with
    | none => .error ()
    | some st =>
      .ok { s with
        ball := { s.ball with
                  x := st.x
                  y := st.y
                  vx := 0
                  vy := 0
                  radius := lvl.ballRadius.getD 15 }
        levelCoins := lvl.coins
        coinsCollectedThisLevel := 0
        levelExtraLives := lvl.extraLives
        levelPowerups := lvl.powerups.map (fun p => { p with collected := false })
        activePowerups := []
        levelMovingWalls := lvl.movingWalls.map
          (fun w => { w with currentX := w.originalX, currentY := w.originalY }) }

/-- `loadLevel(levelIndex)`.  `lvl` is what `levelManager.getLevel` handed
back.  The only validation in the source is the `!this.currentLevel`
check; no field of the MazeDefinition is inspected.  The `Bool` is the
source's return value. -/
noncomputable def loadLevel (s : EngineState) (lvl : Option EngineLevel) :
    Except Unit (Bool × EngineState) :=
  let s1 := { s with currentLevel := lvl }
  match lvl with
  | none => .ok (false, s1)
  | some l =>
    let s2 := { s1 with
                timeScale := 1
                timeWarpActive := false
                timeWarpUsed := false }
    match resetBall s2 with
    | .error e => .error e
    | .ok s3 =>
      .ok (true, { s3 with
        levelCoins := l.coins
        coinsCollectedThisLevel := 0
        levelExtraLives := l.extraLives
        levelPowerups := l.powerups.map (fun p => { p with collected := false })
        levelBouncePads := l.bouncePads
        levelSpeedZones := l.speedZones
        levelMovingWalls := l.movingWalls.map
          (fun w => { w with currentX := w.originalX, currentY := w.originalY })
        activePowerups := [] })

/-- `start()`, at wall-clock instant `now`. -/
noncomputable def startEngine (now : ℝ) (s : EngineState) : EngineState :=
  if s.isRunning then s
  else { s with
         isRunning := true
         isPaused := false
         elapsedTime := 0
         startTime := now
         timerRunning := true
         lastFrameTime := now }

/-- `pause()`: stops the timer and the animation-frame loop.  Nothing
else is touched — in particular `levelMovingWalls`, `activePowerups`
(and their pending `setTimeout` deadlines) are left as they are. -/
noncomputable def pause (s : EngineState) : EngineState :=
  if ¬s.isRunning ∨ s.isPaused then s
  else { s with isPaused := true, timerRunning := false }

/-- `resume()` at wall-clock instant `now`: restarts the loop and
re-samples `lastFrameTime` from the resume instant. -/
noncomputable def resume (now : ℝ) (s : EngineState) : EngineState :=
  if ¬s.isRunning ∨ ¬s.isPaused then s
  else { s with isPaused := false, timerRunning := true, lastFrameTime := now }

/-- `stop()`. -/
noncomputable def stopEngine (s : EngineState) : EngineState :=
  { s with isRunning := false, isPaused := false, timerRunning := false }

/-- `restart()` at wall-clock instant `now`: `stop(); resetBall(); start()`
(the particle/trail clears are cosmetic).  Note it does **not** touch
`timeWarpUsed`/`timeWarpActive`/`timeScale`. -/
noncomputable def restart (now : ℝ) (s : EngineState) : Except Unit EngineState :=
  (resetBall (stopEngine s)).map (startEngine now)

/-- `activateTimeWarp()`.  `slowMotionGranted` is
`upgradeManager.getActiveEffects().slowMotion`.  The 3-second
auto-deactivation `setTimeout` is modelled by `deactivateTimeWarp`
applied at the deadline. -/
noncomputable def activateTimeWarp (slowMotionGranted : Bool) (s : EngineState) :
    Bool × EngineState :=
  if ¬slowMotionGranted then (false, s)
  else if s.timeWarpUsed then (false, s)
  else if s.timeWarpActive then (false, s)
  else (true, { s with
                timeWarpActive := true
                timeWarpUsed := true
                timeScale := 4/10 })

/-- `deactivateTimeWarp()`. -/
noncomputable def deactivateTimeWarp (s : EngineState) : EngineState :=
  { s with timeWarpActive := false, timeScale := 1 }

/-- `canUseTimeWarp()`. -/
def canUseTimeWarp (slowMotionGranted : Bool) (s : EngineState) : Bool :=
  slowMotionGranted && !s.timeWarpUsed && !s.timeWarpActive

/-- `k` applications of `restart` at wall-clock instants `nows`. -/
noncomputable def restartN : List ℝ → EngineState → Except Unit EngineState
  | [], s => .ok s
  | now :: rest, s =>
    match restart now s with
    | .error e => .error e
    | .ok s' => restartN rest s'

/-- `calculateStars(time)` against a level's `starTimes` list, including
the source's fallback to 1 star for a malformed targets array. -/
def calculateStars (targets : List ℤ) (time : ℚ) : ℕ :=
  if targets.length < 3 then 1
  else if time ≤ (targets.getD 2 0 : ℤ) then 3
  else if time ≤ (targets.getD 1 0 : ℤ) then 2
  else if time ≤ (targets.getD 0 0 : ℤ) then 1
  else 1

/-- The frame delta computed by `gameLoop`:
`Math.min((timestamp - lastFrameTime) / 1000, 0.05)`. -/
noncomputable def gameLoopDelta (timestamp lastFrameTime : ℝ) : ℝ :=
  min ((timestamp - lastFrameTime) / 1000) (5/100)

/-- The collision flags and clamped coordinates accumulated by
`checkWallCollisions` (`result = {x, y, newX, newY}`). -/
structure CollisionRes where
  xc : Bool
  yc : Bool
  newX : ℝ
  newY : ℝ

/-- One wall's contribution to `checkWallCollisions`: closest point on
the rectangle to the candidate centre, tested per axis.  The source
compares `Math.sqrt(distX²+distY²) < r`; with `0 ≤ r` this is the squared
comparison used here. -/
noncomputable def collideRect (ballX ballY newX newY r : ℝ)
    (left right top bottom : ℝ) (acc : CollisionRes) : CollisionRes :=
  let nearestX := max left (min newX right)
  let nearestY := max top (min ballY bottom)
  let distX := newX - nearestX
  let distY := ballY - nearestY
  let acc1 :=
    if distX^2 + distY^2 < r^2 then
      { acc with
        xc := true
        newX := if newX < left then left - r
                else if right < newX then right + r
                else acc.newX }
    else acc
  let nearestX2 := max left (min ballX right)
  let nearestY2 := max top (min newY bottom)
  let distX2 := ballX - nearestX2
  let distY2 := newY - nearestY2
  if distX2^2 + distY2^2 < r^2 then
    { acc1 with
      yc := true
      newY := if newY < top then top - r
              else if bottom < newY then bottom + r
              else acc1.newY }
  else acc1

/-- `checkWallCollisions(newX, newY)`: static walls, then the moving
walls at their current positions, then the maze boundary. -/
noncomputable def checkWallCollisions (lvl : EngineLevel)
    (mws : List EMovingWall) (ball : Ball) (newX newY : ℝ) : CollisionRes :=
  let r := ball.radius
  let init : CollisionRes := ⟨false, false, ball.x, ball.y⟩
  let afterStatic := lvl.walls.foldl (fun acc w =>
    collideRect ball.x ball.y newX newY r w.x (w.x + w.width) w.y (w.y + w.height) acc) init
  let afterMoving := mws.foldl (fun acc w =>
    collideRect ball.x ball.y newX newY r w.currentX (w.currentX + w.width)
      w.currentY (w.currentY + w.height) acc) afterStatic
  let b1 :=
    if newX - r < 0 then { afterMoving with xc := true, newX := r }
    else if lvl.width < newX + r then
      { afterMoving with xc := true, newX := lvl.width - r }
    else afterMoving
  if newY - r < 0 then { b1 with yc := true, newY := r }
  else if lvl.height < newY + r then
    { b1 with yc := true, newY := lvl.height - r }
  else b1

/-- Steps 2–4 of `update(deltaTime)`: tilt acceleration (note: the
source multiplies by the **unscaled** `deltaTime`), the frame-rate
independent friction `friction^(dt*60)` (`Math.pow`, embedded as
`Real.rpow`), and the max-speed clamp.  Returns the velocity vector the
frame then moves with. -/
noncomputable def preCollisionVel (inputX inputY sensitivity dt : ℝ)
    (s : EngineState) : ℝ × ℝ :=
  let ax := inputX * gravity * sensitivity * 60 * dt
  let ay := inputY * gravity * sensitivity * 60 * dt
  let vx1 := s.ball.vx + ax
  let vy1 := s.ball.vy + ay
  let fric := s.ball.friction ^ (dt * 60)
  let vx2 := vx1 * fric
  let vy2 := vy1 * fric
  let speed := Real.sqrt (vx2^2 + vy2^2)
  let vx3 := if maxSpeed < speed then vx2 / speed * maxSpeed else vx2
  let vy3 := if maxSpeed < speed then vy2 / speed * maxSpeed else vy2
  (vx3, vy3)

/-- The tentative new position `(newX, newY)` of the frame:
`ball.pos + v * deltaTime * 60` (again the unscaled `deltaTime`). -/
noncomputable def tentativePos (inputX inputY sensitivity dt : ℝ)
    (s : EngineState) : ℝ × ℝ :=
  let v := preCollisionVel inputX inputY sensitivity dt s
  (s.ball.x + v.1 * dt * 60, s.ball.y + v.2 * dt * 60)

/-- The kinematics slice of `update(deltaTime)` (GameEngine.js lines
404–482): the dead `scaledDelta` binding, tilt acceleration, friction,
speed clamp, tentative position, wall-collision resolution and the
pinball bounce responses.  `rand1`/`rand2` are the frame's two potential
`Math.random()` results for the perpendicular deflections. -/
noncomputable def updateKinematics (inputX inputY sensitivity dt rand1 rand2 : ℝ)
    (s : EngineState) : EngineState :=
  match s.currentLevel with
  | none => s
  | some lvl =>
    let scaledDelta := dt * s.timeScale
    let _ := scaledDelta
    let v := preCollisionVel inputX inputY sensitivity dt s
    let vx3 := v.1
    let vy3 := v.2
    let p := tentativePos inputX inputY sensitivity dt s
    let newX := p.1
    let newY := p.2
    let col := checkWallCollisions lvl s.levelMovingWalls s.ball newX newY
    let vx4 := if col.xc then vx3 * (-(s.ball.bounce) * (12/10)) else vx3
    let vy4 := if col.xc then vy3 + (rand1 - 1/2) * 2 else vy3
    let x' := if col.xc then col.newX else newX
    let vy5 := if col.yc then vy4 * (-(s.ball.bounce) * (12/10)) else vy4
    let vx5 := if col.yc then vx4 + (rand2 - 1/2) * 2 else vx4
    let y' := if col.yc then col.newY else newY
    { s with ball := { s.ball with x := x', y := y', vx := vx5, vy := vy5 } }

/-- `updateMovingWalls(deltaTime)`: the position is recomputed from the
**absolute wall clock** (`gameTime = performance.now() / 1000`), not from
any per-session bookkeeping. -/
noncomputable def updateMovingWalls (gameTime : ℝ) (mws : List EMovingWall) :
    List EMovingWall :=
  mws.map (fun w =>
    let offset := Real.sin (gameTime * (w.speed / 50) + w.phase) * w.range
    if w.horizontal then { w with currentX := w.originalX + offset }
    else { w with currentY := w.originalY + offset })

/-- `activatePowerup(type)` durations. -/
noncomputable def powerupDuration (t : String) : ℝ :=
  if t = "speed_boost" then 3000
  else if t = "slow_motion" then 4000
  else if t = "shield" then 5000
  else if t = "magnet" then 6000
  else if t = "ghost" then 2500
  else if t = "shrink" then 5000
  else if t = "time_freeze" then 3000
  else if t = "double_coins" then 8000
  else 3000

/-- `activatePowerup(type)` at wall-clock instant `now`: records the
effect with `endTime = now + duration`; the `setTimeout` deactivation is
the pending deadline `endTime`. -/
noncomputable def activatePowerup (t : String) (now : ℝ) (s : EngineState) : EngineState :=
  { s with activePowerups :=
      ⟨t, now + powerupDuration t, true⟩ ::
        s.activePowerups.filter (fun e => e.ptype ≠ t) }

/-- The pending `setTimeout` callbacks firing: at wall-clock instant
`now`, every effect whose deadline has passed is deactivated.  The
timers are wall-clock driven; nothing consults `isPaused`. -/
noncomputable def firePowerupTimers (now : ℝ) (s : EngineState) : EngineState :=
  { s with activePowerups := s.activePowerups.map (fun e =>
      if e.endTime ≤ now then { e with active := false } else e) }

/-! ### Concrete scenario states used by refutations and witnesses -/

/-- A structurally malformed MazeDefinition: no goal and an empty wall
list (but a start, so `resetBall` does not throw). -/
noncomputable def malformedLevel : EngineLevel :=
  { start := some ⟨50, 50⟩, goal := none, walls := [], holes := [],
    coins := [], extraLives := [], powerups := [], bouncePads := [],
    speedZones := [], movingWalls := [], ballRadius := some 12,
    width := 300, height := 420, starTimes := [] }

/-- A horizontal oscillator with `speed = 25` and `phase = 0` (a moving
wall as the generator could produce it, at its phase-zero position). -/
noncomputable def c5Wall : EMovingWall :=
  { originalX := 100, originalY := 0, width := 40, height := 8,
    horizontal := true, range := 30, speed := 25, phase := 0,
    currentX := 100, currentY := 0 }

/-- A running session holding `c5Wall`. -/
noncomputable def c5State : EngineState :=
  { initEngineState with
    isRunning := true
    timerRunning := true
    levelMovingWalls := [c5Wall] }

/-- A one-wall level for the bounce-response scenario. -/
noncomputable def c7Level : EngineLevel :=
  { start := some ⟨30, 50⟩, goal := some ⟨290, 50, 20⟩,
    walls := [⟨0, 0, 8, 100⟩], holes := [], coins := [], extraLives := [],
    powerups := [], bouncePads := [], speedZones := [], movingWalls := [],
    ballRadius := some 15, width := 300, height := 420, starTimes := [] }

/-- A ball heading into `c7Level`'s wall at `vx = -10`. -/
noncomputable def c7State : EngineState :=
  { initEngineState with
    isRunning := true
    currentLevel := some c7Level
    ball := { initBall with x := 30, y := 50, vx := -10, vy := 0 } }

end Engine

/-!
# Theorems

General lemmas first, then one theorem per specification claim
(with witnesses and refutations as required).
-/

theorem lcgNext_lt (s : ℕ) : lcgNext s < 233280 :=
  Nat.mod_lt _ (by norm_num)

theorem drawNat_lt (s k : ℕ) (hk : 0 < k) : (drawNat s k).1 < k := by
  unfold drawNat
  simp only
  calc lcgNext s * k / 233280 ≤ 233279 * k / 233280 := by
        apply Nat.div_le_div_right
        exact Nat.mul_le_mul_right k (by have := lcgNext_lt s; omega)
    _ < k := by
        apply Nat.div_lt_of_lt_mul
        nlinarith

/-- C1: for every `levelNumber`, `generateLevel` is a pure function of
the level number alone.  `generateLevelFrom` models a call on a
`LevelGenerator` whose instance seed (`this.seed`) currently holds any
value whatsoever; because the method's first action is
`this.random(levelNum * 7919)`, which overwrites the instance seed, and
every randomized decision then draws from that stream, the returned
MazeDefinition (wall list, hole/coin/extra-life/powerup/bounce-pad/
speed-zone/moving-wall lists, start, goal, star thresholds) is
structurally identical across any two calls — in particular across two
back-to-back calls on the same instance — with no wall-clock or other
external entropy anywhere in the definition. -/
theorem c1_generateLevel_deterministic (levelNum s₁ s₂ : ℕ) :
    (generateLevelFrom s₁ levelNum).1 = (generateLevelFrom s₂ levelNum).1 ∧
    (generateLevelFrom (generateLevelFrom s₁ levelNum).2 levelNum).1 =
      (generateLevelFrom s₁ levelNum).1 :=
  ⟨rfl, rfl⟩

/-- C3 (refutation of the claim's strict-decrease part): the kinematics
slice of `update` produces a ball state that is **independent of the
time-scale multiplier**.  The source computes
`scaledDelta = deltaTime * this.timeScale` (GameEngine.js:406) and then
never uses it: acceleration, friction and the position integration all
use the unscaled `deltaTime`.  Hence, contrary to the claim, per-frame
displacement under `timeScale = 0.4` equals (is not strictly smaller
than) the displacement under `timeScale = 1.0` for identical ball state
and tilt input. -/
theorem c3_update_ignores_timeScale
    (inputX inputY sensitivity dt rand1 rand2 : ℝ) (s : Engine.EngineState) :
    (Engine.updateKinematics inputX inputY sensitivity dt rand1 rand2
      { s with timeScale := 4/10 }).ball =
    (Engine.updateKinematics inputX inputY sensitivity dt rand1 rand2
      { s with timeScale := 1 }).ball := by
  unfold Engine.updateKinematics
  cases s.currentLevel <;> rfl

/-- C6 (refutation): `loadLevel` performs no validation of the
MazeDefinition.  For the concrete `malformedLevel` — no goal, empty wall
list — the load **succeeds** (returns `true`), no error is reported, and
`start()` then happily runs a session on it. -/
theorem c6_malformed_level_loads :
    ∃ s', Engine.loadLevel Engine.initEngineState (some Engine.malformedLevel) =
        .ok (true, s') ∧
      (Engine.startEngine 0 s').isRunning = true :=
  ⟨_, rfl, rfl⟩

/-- `calculateStars` is antitone in the elapsed time, for any targets
array (ordered or not). -/
theorem calculateStars_antitone (targets : List ℤ) (t1 t2 : ℚ) (h : t1 ≤ t2) :
    Engine.calculateStars targets t2 ≤ Engine.calculateStars targets t1 := by
  unfold Engine.calculateStars
  split_ifs <;> first | omega | (exfalso; linarith)

/-- `calculateStars` always grants at least one star. -/
theorem calculateStars_pos (targets : List ℤ) (t : ℚ) :
    1 ≤ Engine.calculateStars targets t := by
  unfold Engine.calculateStars
  split_ifs <;> omega

/-- The generated star thresholds. -/
theorem generateLevel_starTimes (n : ℕ) :
    (generateLevel n).starTimes =
      [levelBase n, levelBase n * 13 / 20, levelBase n * 2 / 5] :=
  rfl

/-- C8: for every generated level (`n+1` ranges over all level numbers
≥ 1) the star rating is antitone in the completion time — a
faster-or-equal time never yields fewer stars — and every completion
earns at least one star; moreover the three generated thresholds are
ordered `⌊base*0.4⌋ ≤ ⌊base*0.65⌋ ≤ base`. -/
theorem c8_star_monotonicity (n : ℕ) :
    (∀ t1 t2 : ℚ, t1 ≤ t2 →
      Engine.calculateStars (generateLevel (n+1)).starTimes t2 ≤
        Engine.calculateStars (generateLevel (n+1)).starTimes t1) ∧
    (∀ t : ℚ, 1 ≤ Engine.calculateStars (generateLevel (n+1)).starTimes t) ∧
    ((generateLevel (n+1)).starTimes.getD 2 0 ≤
        (generateLevel (n+1)).starTimes.getD 1 0 ∧
      (generateLevel (n+1)).starTimes.getD 1 0 ≤
        (generateLevel (n+1)).starTimes.getD 0 0) := by
  refine ⟨fun t1 t2 h => calculateStars_antitone _ t1 t2 h,
          fun t => calculateStars_pos _ t, ?_⟩
  rw [generateLevel_starTimes]
  have hb : (0 : ℤ) ≤ levelBase (n+1) := by
    unfold levelBase
    positivity
  constructor
  · simp only [List.getD]
    have : levelBase (n+1) * 2 / 5 = levelBase (n+1) * 8 / 20 := by
      omega
    rw [this]
    apply Int.ediv_le_ediv (by norm_num)
    nlinarith
  · simp only [List.getD]
    calc levelBase (n+1) * 13 / 20 ≤ levelBase (n+1) * 20 / 20 := by
          apply Int.ediv_le_ediv (by norm_num)
          nlinarith
      _ = levelBase (n+1) := by omega

/-- Witness for C8 at level 1 and times 5000 ≤ 8000 ms. -/
theorem c8_star_monotonicity_witness :
    Engine.calculateStars (generateLevel 1).starTimes 8000 ≤
      Engine.calculateStars (generateLevel 1).starTimes 5000 ∧
    1 ≤ Engine.calculateStars (generateLevel 1).starTimes 8000 :=
  ⟨(c8_star_monotonicity 0).1 5000 8000 (by norm_num),
   (c8_star_monotonicity 0).2.1 8000⟩

theorem startEngine_timeWarpUsed (now : ℝ) (s : Engine.EngineState) :
    (Engine.startEngine now s).timeWarpUsed = s.timeWarpUsed := by
  unfold Engine.startEngine
  split <;> rfl

theorem resetBall_timeWarpUsed (s t : Engine.EngineState)
    (h : Engine.resetBall s = .ok t) : t.timeWarpUsed = s.timeWarpUsed := by
  unfold Engine.resetBall at h
  cases hc : s.currentLevel with
  | none =>
    rw [hc] at h
    simp only [Except.ok.injEq] at h
    rw [← h]
  | some lvl =>
    rw [hc] at h
    dsimp only at h
    cases hs : lvl.start with
    | none => rw [hs] at h; exact absurd h (by simp)
    | some st =>
      rw [hs] at h
      simp only [Except.ok.injEq] at h
      rw [← h]

/-- `restart` does not touch the time-warp latch. -/
theorem restart_preserves_timeWarpUsed (now : ℝ) (s t : Engine.EngineState)
    (h : Engine.restart now s = .ok t) : t.timeWarpUsed = s.timeWarpUsed := by
  unfold Engine.restart at h
  cases hr : Engine.resetBall (Engine.stopEngine s) with
  | error e => rw [hr] at h; exact absurd h (by simp [Except.map])
  | ok u =>
    rw [hr] at h
    simp only [Except.map, Except.ok.injEq] at h
    have hu := resetBall_timeWarpUsed _ _ hr
    rw [← h, startEngine_timeWarpUsed, hu]
    rfl

theorem restartN_preserves_timeWarpUsed (nows : List ℝ)
    (s t : Engine.EngineState) (h : Engine.restartN nows s = .ok t) :
    t.timeWarpUsed = s.timeWarpUsed := by
  induction nows generalizing s with
  | nil =>
    unfold Engine.restartN at h
    simp only [Except.ok.injEq] at h
    rw [← h]
  | cons now rest ih =>
    unfold Engine.restartN at h
    cases hr : Engine.restart now s with
    | error e => rw [hr] at h; cases h
    | ok s' =>
      rw [hr] at h
      exact (ih s' h).trans (restart_preserves_timeWarpUsed now s s' hr)

/-- A successful `activateTimeWarp` latches `timeWarpUsed`. -/
theorem activateTimeWarp_latches (eff : Bool) (s : Engine.EngineState)
    (h : (Engine.activateTimeWarp eff s).1 = true) :
    (Engine.activateTimeWarp eff s).2.timeWarpUsed = true := by
  unfold Engine.activateTimeWarp at h ⊢
  split_ifs at h ⊢
  simp_all

/-- `activateTimeWarp` refuses whenever the latch is set, whatever the
upgrade flag says. -/
theorem activateTimeWarp_refuses (eff : Bool) (s : Engine.EngineState)
    (h : s.timeWarpUsed = true) : (Engine.activateTimeWarp eff s).1 = false := by
  unfold Engine.activateTimeWarp
  split_ifs <;> simp_all

/-- C10: once `activateTimeWarp()` has succeeded during a level, any
number of `restart()` calls leaves the warp unavailable —
`activateTimeWarp` keeps returning `false` (and `timeWarpUsed` stays
latched) — because `restart` (`stop(); resetBall(); start()`) never
touches the flag; and a successful `loadLevel` is what clears
`timeWarpUsed` again. -/
theorem c10_restart_keeps_timeWarp_used (eff eff2 : Bool)
    (s : Engine.EngineState) (nows : List ℝ)
    (h : (Engine.activateTimeWarp eff s).1 = true) :
    (∀ t, Engine.restartN nows (Engine.activateTimeWarp eff s).2 = .ok t →
      (Engine.activateTimeWarp eff2 t).1 = false ∧ t.timeWarpUsed = true) ∧
    (∀ lvl b t, Engine.loadLevel s lvl = .ok (b, t) → b = true →
      t.timeWarpUsed = false) := by
  constructor
  · intro t ht
    have hu : t.timeWarpUsed = true :=
      (restartN_preserves_timeWarpUsed nows _ t ht).trans
        (activateTimeWarp_latches eff s h)
    exact ⟨activateTimeWarp_refuses eff2 t hu, hu⟩
  · intro lvl b t hload hb
    subst hb
    unfold Engine.loadLevel at hload
    cases lvl with
    | none => simp at hload
    | some l =>
      simp only at hload
      unfold Engine.resetBall at hload
      cases hs : l.start with
      | none => simp [hs] at hload
      | some st =>
        simp [hs] at hload
        rw [← hload]

/-- Witness for C10: on a fresh engine with the upgrade granted the warp
activates; after one restart it reports `false`. -/
theorem c10_restart_keeps_timeWarp_used_witness :
    (Engine.activateTimeWarp true Engine.initEngineState).1 = true ∧
    (Engine.activateTimeWarp true
      (Engine.startEngine 0 (Engine.stopEngine
        (Engine.activateTimeWarp true Engine.initEngineState).2))).1 = false :=
  ⟨rfl,
   ((c10_restart_keeps_timeWarp_used true true Engine.initEngineState [0]
      rfl).1 _ rfl).1⟩

/-- C5 (refutation): moving-wall positions do **not** continue from
their values at the pause instant.  A session holding `c5Wall` whose
last pre-pause frame ran at wall-clock 0 has the wall at `x = 100`;
pausing and resuming leave the wall list untouched, but the first
post-resume frame (at wall-clock π seconds) recomputes the position from
the absolute clock — `sin(π*(25/50)) = 1` — and places the wall at
`x = 130 ≠ 100`: the oscillation jumped across the whole paused
interval. -/
theorem c5_pause_counterexample :
    (Engine.updateMovingWalls 0 [Engine.c5Wall]).map
        Engine.EMovingWall.currentX = [100] ∧
    (Engine.resume Real.pi (Engine.pause
        { Engine.c5State with
          levelMovingWalls := Engine.updateMovingWalls 0 [Engine.c5Wall] })).levelMovingWalls =
      Engine.updateMovingWalls 0 [Engine.c5Wall] ∧
    (Engine.updateMovingWalls Real.pi
      (Engine.resume Real.pi (Engine.pause
        { Engine.c5State with
          levelMovingWalls := Engine.updateMovingWalls 0 [Engine.c5Wall] })).levelMovingWalls).map
        Engine.EMovingWall.currentX = [130] ∧
    (130 : ℝ) ≠ 100 := by
  have h0 : Engine.updateMovingWalls 0 [Engine.c5Wall] =
      [⟨100, 0, 40, 8, true, 30, 25, 0, 100, 0⟩] := by
    unfold Engine.updateMovingWalls Engine.c5Wall
    simp [Real.sin_zero]
  have hmid : (Engine.resume Real.pi (Engine.pause
      { Engine.c5State with
        levelMovingWalls := Engine.updateMovingWalls 0 [Engine.c5Wall] })).levelMovingWalls =
      Engine.updateMovingWalls 0 [Engine.c5Wall] := by
    unfold Engine.pause Engine.resume Engine.c5State
    simp [Engine.initEngineState]
  refine ⟨by rw [h0]; rfl, hmid, ?_, by norm_num⟩
  rw [hmid, h0]
  unfold Engine.updateMovingWalls
  simp only [List.map_cons, List.map_nil, if_true]
  rw [show Real.pi * ((25:ℝ) / 50) + 0 = Real.pi / 2 by ring]
  rw [Real.sin_pi_div_two]
  norm_num

/-- C5 (amended): while a session is paused the frame loop does not run,
so `pause` itself mutates nothing but the pause/timer flags (ball, coins,
moving walls, active-powerup records, elapsed time are all untouched);
`resume` re-samples `lastFrameTime` from the resume instant, so the first
post-resume frame delta is measured from that instant (no catch-up delta
for the ball integration).  However, the wall-clock-driven parts do not
freeze: a post-resume `updateMovingWalls` output depends only on the
absolute wall clock (pausing and resuming have no effect on it), and the
pending powerup-expiry `setTimeout` deadlines keep running during the
pause (`firePowerupTimers` acts identically on a paused and an unpaused
session). -/
theorem c5_amended_pause_semantics (s : Engine.EngineState)
    (tR tF now : ℝ) :
    (Engine.pause s).ball = s.ball ∧
    (Engine.pause s).levelCoins = s.levelCoins ∧
    (Engine.pause s).levelMovingWalls = s.levelMovingWalls ∧
    (Engine.pause s).activePowerups = s.activePowerups ∧
    (Engine.pause s).elapsedTime = s.elapsedTime ∧
    (s.isRunning = true → s.isPaused = false →
      (Engine.resume tR (Engine.pause s)).lastFrameTime = tR ∧
      Engine.gameLoopDelta tF (Engine.resume tR (Engine.pause s)).lastFrameTime =
        min ((tF - tR) / 1000) (5/100)) ∧
    Engine.updateMovingWalls now
        (Engine.resume tR (Engine.pause s)).levelMovingWalls =
      Engine.updateMovingWalls now s.levelMovingWalls ∧
    (Engine.firePowerupTimers now (Engine.pause s)).activePowerups =
      (Engine.firePowerupTimers now s).activePowerups := by
  have hp : ((Engine.pause s).ball = s.ball ∧
      (Engine.pause s).levelCoins = s.levelCoins ∧
      (Engine.pause s).levelMovingWalls = s.levelMovingWalls ∧
      (Engine.pause s).activePowerups = s.activePowerups ∧
      (Engine.pause s).elapsedTime = s.elapsedTime) := by
    unfold Engine.pause
    split <;> exact ⟨rfl, rfl, rfl, rfl, rfl⟩
  have hr : (Engine.resume tR (Engine.pause s)).levelMovingWalls =
      s.levelMovingWalls := by
    unfold Engine.resume
    split
    · exact hp.2.2.1
    · exact hp.2.2.1
  refine ⟨hp.1, hp.2.1, hp.2.2.1, hp.2.2.2.1, hp.2.2.2.2, ?_, by rw [hr], ?_⟩
  · intro h1 h2
    have hps : Engine.pause s =
        { s with isPaused := true, timerRunning := false } := by
      unfold Engine.pause
      rw [if_neg]
      simp [h1, h2]
    have : (Engine.resume tR (Engine.pause s)).lastFrameTime = tR := by
      unfold Engine.resume
      rw [hps, if_neg]
      simp [h1]
    exact ⟨this, by rw [this]; rfl⟩
  · unfold Engine.firePowerupTimers
    rw [hp.2.2.2.1]

/-- Witness for C5 (amended), on the concrete running session
`c5State`: the post-resume frame base time is the resume instant. -/
theorem c5_amended_pause_semantics_witness :
    (Engine.resume 7 (Engine.pause Engine.c5State)).lastFrameTime = 7 :=
  (((c5_amended_pause_semantics Engine.c5State 7 0 0).2.2.2.2.2.1) rfl rfl).1

/-- The pre-collision velocity of the C7 scenario: tilt 0, sensitivity 1,
`dt = 1/60` (so the friction exponent is exactly 1), ball velocity
`(-10, 0)`; friction leaves `(-49/5, 0)`, under the 12-unit speed cap. -/
theorem c7_preVel :
    Engine.preCollisionVel 0 0 1 (1/60) Engine.c7State = (-(49/5), 0) := by
  unfold Engine.preCollisionVel Engine.c7State Engine.initEngineState Engine.initBall
  have e1 : ((1:ℝ)/60 * 60) = 1 := by norm_num
  rw [e1, Real.rpow_one]
  have e2 : ((-10 : ℝ) + 0 * Engine.gravity * 1 * 60 * (1/60)) * (98/100) = -(49/5) := by
    norm_num
  have e3 : ((0 : ℝ) + 0 * Engine.gravity * 1 * 60 * (1/60)) * (98/100) = 0 := by
    norm_num
  dsimp only
  rw [e2, e3]
  have e4 : Real.sqrt ((-(49/5))^2 + 0^2) = 49/5 := by
    rw [show ((-(49/5) : ℝ))^2 + 0^2 = (49/5)^2 by norm_num]
    exact Real.sqrt_sq (by norm_num)
  rw [e4, if_neg (by norm_num [Engine.maxSpeed]), if_neg (by norm_num [Engine.maxSpeed])]

/-- The tentative position of the C7 scenario frame. -/
theorem c7_tentative :
    Engine.tentativePos 0 0 1 (1/60) Engine.c7State = (101/5, 50) := by
  unfold Engine.tentativePos
  rw [c7_preVel]
  show ((30 : ℝ) + -(49/5) * (1/60) * 60, (50 : ℝ) + 0 * (1/60) * 60) = (101/5, 50)
  norm_num

/-- The collision result of the C7 scenario: the x axis is flagged (the
ball's candidate centre is 12.2 < 15 units from the wall), the y axis is
not, and the x position is clamped to the wall's right edge plus the
radius. -/
theorem c7_collision :
    Engine.checkWallCollisions Engine.c7Level Engine.c7State.levelMovingWalls
      Engine.c7State.ball (101/5) 50 = ⟨true, false, 23, 50⟩ := by
  unfold Engine.checkWallCollisions Engine.c7Level Engine.c7State
    Engine.initEngineState Engine.initBall Engine.collideRect
  norm_num [min_def, max_def]

/-- C7 (refutation of the claim's `>1` multiplier): in the concrete C7
scenario the x-axis collision is flagged and the response multiplies the
velocity by `-(bounce*1.2)`; but with the engine's configured
`bounce = 0.75` the effective multiplier has magnitude `0.9 < 1` — the
post-bounce speed `441/50 = 8.82` is strictly **smaller** than the
pre-bounce `49/5 = 9.8`, not larger. -/
theorem c7_counterexample :
    (Engine.checkWallCollisions Engine.c7Level Engine.c7State.levelMovingWalls
        Engine.c7State.ball (101/5) 50).xc = true ∧
    (Engine.updateKinematics 0 0 1 (1/60) (1/2) (1/2) Engine.c7State).ball.vx =
      -(Engine.initBall.bounce * (12/10)) * (-(49/5)) ∧
    |(Engine.updateKinematics 0 0 1 (1/60) (1/2) (1/2) Engine.c7State).ball.vx| <
      |(-(49/5) : ℝ)| ∧
    ¬ (1 < Engine.initBall.bounce * (12/10)) := by
  have hcol := c7_collision
  have hupd : (Engine.updateKinematics 0 0 1 (1/60) (1/2) (1/2)
      Engine.c7State).ball.vx = 441/50 := by
    unfold Engine.updateKinematics
    rw [show Engine.c7State.currentLevel = some Engine.c7Level from rfl]
    dsimp only
    rw [c7_preVel, c7_tentative, hcol]
    simp only [Bool.false_eq_true, if_true, if_false, reduceIte]
    show -(49/5) * (-(Engine.c7State.ball.bounce) * (12/10)) = (441/50 : ℝ)
    norm_num [Engine.c7State, Engine.initEngineState, Engine.initBall]
  refine ⟨by rw [hcol], ?_, ?_, by norm_num [Engine.initBall]⟩
  · rw [hupd]
    norm_num [Engine.initBall]
  · rw [hupd]
    rw [abs_of_pos (by norm_num), abs_of_neg (by norm_num)]
    norm_num

/-- C7 (amended): whenever the frame's wall-collision resolution flags a
collision on an axis, that axis's velocity is inverted and multiplied by
`bounce * 1.2`; with the engine's configured `bounce = 0.75` the
effective multiplier has magnitude `0.9` — i.e. it does **not** exceed
1 — and the perpendicular axis receives a perturbation
`(Math.random()-0.5)*2` of absolute value at most 1.  The source runs
the x response before the y response, so for an x-only collision
`vx' = -0.9*vx` exactly and `|vy' - vy| ≤ 1`; for a y-only collision
`vy' = -0.9*vy` exactly and `|vx' - vx| ≤ 1`; and when both axes are
flagged in the same frame `vx' = -0.9*vx` plus a perturbation of at
most 1, while `vy` is perturbed **before** its inversion, ending at
`-0.9` times the perturbed value, i.e. within `0.9` of `-0.9*vy`. -/
theorem c7_amended_bounce (inputX inputY sensitivity dt rand1 rand2 : ℝ)
    (s : Engine.EngineState) (lvl : Engine.EngineLevel)
    (hl : s.currentLevel = some lvl)
    (hb : s.ball.bounce = 3/4)
    (hr1 : 0 ≤ rand1) (hr2 : rand1 ≤ 1) (hr3 : 0 ≤ rand2) (hr4 : rand2 ≤ 1) :
    ((Engine.checkWallCollisions lvl s.levelMovingWalls s.ball
        (Engine.tentativePos inputX inputY sensitivity dt s).1
        (Engine.tentativePos inputX inputY sensitivity dt s).2).xc = true →
      (Engine.checkWallCollisions lvl s.levelMovingWalls s.ball
        (Engine.tentativePos inputX inputY sensitivity dt s).1
        (Engine.tentativePos inputX inputY sensitivity dt s).2).yc = false →
      (Engine.updateKinematics inputX inputY sensitivity dt rand1 rand2 s).ball.vx =
        -(s.ball.bounce * (12/10)) *
          (Engine.preCollisionVel inputX inputY sensitivity dt s).1 ∧
      |(Engine.updateKinematics inputX inputY sensitivity dt rand1 rand2 s).ball.vx| =
        (9/10) * |(Engine.preCollisionVel inputX inputY sensitivity dt s).1| ∧
      |(Engine.updateKinematics inputX inputY sensitivity dt rand1 rand2 s).ball.vy -
          (Engine.preCollisionVel inputX inputY sensitivity dt s).2| ≤ 1) ∧
    ((Engine.checkWallCollisions lvl s.levelMovingWalls s.ball
        (Engine.tentativePos inputX inputY sensitivity dt s).1
        (Engine.tentativePos inputX inputY sensitivity dt s).2).xc = false →
      (Engine.checkWallCollisions lvl s.levelMovingWalls s.ball
        (Engine.tentativePos inputX inputY sensitivity dt s).1
        (Engine.tentativePos inputX inputY sensitivity dt s).2).yc = true →
      (Engine.updateKinematics inputX inputY sensitivity dt rand1 rand2 s).ball.vy =
        -(s.ball.bounce * (12/10)) *
          (Engine.preCollisionVel inputX inputY sensitivity dt s).2 ∧
      |(Engine.updateKinematics inputX inputY sensitivity dt rand1 rand2 s).ball.vy| =
        (9/10) * |(Engine.preCollisionVel inputX inputY sensitivity dt s).2| ∧
      |(Engine.updateKinematics inputX inputY sensitivity dt rand1 rand2 s).ball.vx -
          (Engine.preCollisionVel inputX inputY sensitivity dt s).1| ≤ 1) ∧
    ((Engine.checkWallCollisions lvl s.levelMovingWalls s.ball
        (Engine.tentativePos inputX inputY sensitivity dt s).1
        (Engine.tentativePos inputX inputY sensitivity dt s).2).xc = true →
      (Engine.checkWallCollisions lvl s.levelMovingWalls s.ball
        (Engine.tentativePos inputX inputY sensitivity dt s).1
        (Engine.tentativePos inputX inputY sensitivity dt s).2).yc = true →
      (Engine.updateKinematics inputX inputY sensitivity dt rand1 rand2 s).ball.vx =
        -(s.ball.bounce * (12/10)) *
          (Engine.preCollisionVel inputX inputY sensitivity dt s).1 +
          (rand2 - 1/2) * 2 ∧
      (Engine.updateKinematics inputX inputY sensitivity dt rand1 rand2 s).ball.vy =
        -(s.ball.bounce * (12/10)) *
          ((Engine.preCollisionVel inputX inputY sensitivity dt s).2 +
            (rand1 - 1/2) * 2) ∧
      |(Engine.updateKinematics inputX inputY sensitivity dt rand1 rand2 s).ball.vx -
          (-(9/10) * (Engine.preCollisionVel inputX inputY sensitivity dt s).1)| ≤ 1 ∧
      |(Engine.updateKinematics inputX inputY sensitivity dt rand1 rand2 s).ball.vy -
          (-(9/10) * (Engine.preCollisionVel inputX inputY sensitivity dt s).2)| ≤
        9/10) := by
  unfold Engine.updateKinematics
  rw [hl]
  dsimp only
  refine ⟨?_, ?_, ?_⟩
  · intro hx hy
    simp only [hx, hy, Bool.false_eq_true, if_true, if_false, reduceIte]
    refine ⟨by ring, ?_, ?_⟩
    · rw [hb]
      rw [abs_mul]
      rw [show |(-(3/4 : ℝ) * (12/10))| = 9/10 by norm_num]
      ring
    · have : (Engine.preCollisionVel inputX inputY sensitivity dt s).2 +
          (rand1 - 1/2) * 2 -
          (Engine.preCollisionVel inputX inputY sensitivity dt s).2 =
          (rand1 - 1/2) * 2 := by ring
      rw [this, abs_le]
      constructor <;> linarith
  · intro hx hy
    simp only [hx, hy, Bool.false_eq_true, if_true, if_false, reduceIte]
    refine ⟨by ring, ?_, ?_⟩
    · rw [hb]
      rw [abs_mul]
      rw [show |(-(3/4 : ℝ) * (12/10))| = 9/10 by norm_num]
      ring
    · have : (Engine.preCollisionVel inputX inputY sensitivity dt s).1 +
          (rand2 - 1/2) * 2 -
          (Engine.preCollisionVel inputX inputY sensitivity dt s).1 =
          (rand2 - 1/2) * 2 := by ring
      rw [this, abs_le]
      constructor <;> linarith
  · intro hx hy
    simp only [hx, hy, Bool.false_eq_true, if_true, if_false, reduceIte]
    refine ⟨by ring, by ring, ?_, ?_⟩
    · have : (Engine.preCollisionVel inputX inputY sensitivity dt s).1 *
          (-(s.ball.bounce) * (12/10)) + (rand2 - 1/2) * 2 -
          (-(9/10) * (Engine.preCollisionVel inputX inputY sensitivity dt s).1) =
          (rand2 - 1/2) * 2 := by
        rw [hb]
        ring
      rw [this, abs_le]
      constructor <;> linarith
    · have : ((Engine.preCollisionVel inputX inputY sensitivity dt s).2 +
          (rand1 - 1/2) * 2) * (-(s.ball.bounce) * (12/10)) -
          (-(9/10) * (Engine.preCollisionVel inputX inputY sensitivity dt s).2) =
          -(9/10) * ((rand1 - 1/2) * 2) := by
        rw [hb]
        ring
      rw [this, abs_le]
      constructor <;> linarith

/-- Witness for C7 (amended) on the concrete C7 scenario (an x-axis
collision with no y collision). -/
theorem c7_amended_bounce_witness :
    (Engine.updateKinematics 0 0 1 (1/60) (1/2) (1/2) Engine.c7State).ball.vx =
      -(Engine.c7State.ball.bounce * (12/10)) *
        (Engine.preCollisionVel 0 0 1 (1/60) Engine.c7State).1 ∧
    |(Engine.updateKinematics 0 0 1 (1/60) (1/2) (1/2) Engine.c7State).ball.vx| =
      (9/10) * |(Engine.preCollisionVel 0 0 1 (1/60) Engine.c7State).1| ∧
    |(Engine.updateKinematics 0 0 1 (1/60) (1/2) (1/2) Engine.c7State).ball.vy -
        (Engine.preCollisionVel 0 0 1 (1/60) Engine.c7State).2| ≤ 1 :=
  (c7_amended_bounce 0 0 1 (1/60) (1/2) (1/2) Engine.c7State Engine.c7Level rfl
    (by norm_num [Engine.c7State, Engine.initEngineState, Engine.initBall])
    (by norm_num) (by norm_num) (by norm_num) (by norm_num)).1
    (by rw [c7_tentative]; rw [c7_collision])
    (by rw [c7_tentative]; rw [c7_collision])

/-! ### C2: grid access basics -/

theorem getCell_setCell (g : Grid) (r c r' c' : ℕ) (cell : Cell) :
    getCell (setCell g r c cell) r' c' =
      if r' = r ∧ c' = c ∧ r < g.length ∧ c < (g.getD r []).length then cell
      else getCell g r' c' := by
  unfold getCell setCell
  by_cases hr : r' = r
  · subst hr
    by_cases hrl : r' < g.length
    · have houter : (g.set r' ((g.getD r' []).set c cell)).getD r' [] =
          (g.getD r' []).set c cell := by
        rw [List.getD_eq_getElem?_getD, List.getElem?_set_self hrl]
        rfl
      rw [houter]
      by_cases hc : c' = c
      · subst hc
        by_cases hcl : c' < (g.getD r' []).length
        · rw [if_pos ⟨rfl, rfl, hrl, hcl⟩]
          rw [List.getD_eq_getElem?_getD, List.getElem?_set_self hcl]
          rfl
        · rw [if_neg (by tauto)]
          rw [List.set_eq_of_length_le (by omega)]
      · rw [if_neg (by tauto)]
        have hinner : ((g.getD r' []).set c cell).getD c' initCell =
            (g.getD r' []).getD c' initCell := by
          rw [List.getD_eq_getElem?_getD,
            List.getElem?_set_ne (by omega : c ≠ c'),
            ← List.getD_eq_getElem?_getD]
        rw [hinner]
    · rw [if_neg (by tauto)]
      rw [List.set_eq_of_length_le (by omega)]
  · rw [if_neg (by tauto)]
    have houter : (g.set r ((g.getD r []).set c cell)).getD r' [] =
        g.getD r' [] := by
      rw [List.getD_eq_getElem?_getD,
        List.getElem?_set_ne (by omega : r ≠ r'),
        ← List.getD_eq_getElem?_getD]
    rw [houter]

theorem length_setCell (g : Grid) (r c : ℕ) (cell : Cell) :
    (setCell g r c cell).length = g.length := by
  unfold setCell
  exact List.length_set _ _ _

theorem gridDims_setCell (g : Grid) (rows cols r c : ℕ) (cell : Cell)
    (h : gridDims g rows cols) : gridDims (setCell g r c cell) rows cols := by
  obtain ⟨h1, h2⟩ := h
  by_cases hrl : r < g.length
  · refine ⟨by rw [length_setCell, h1], ?_⟩
    intro row hrow
    rcases List.mem_or_eq_of_mem_set hrow with hmem | heq
    · exact h2 row hmem
    · subst heq
      rw [List.length_set]
      have hmem : g.getD r [] ∈ g := by
        rw [List.getD_eq_getElem g [] hrl]
        exact List.getElem_mem hrl
      exact h2 _ hmem
  · unfold setCell
    rw [List.set_eq_of_length_le (by omega)]
    exact ⟨h1, h2⟩

theorem getCell_modifyCell (g : Grid) (r c r' c' : ℕ) (f : Cell → Cell) :
    getCell (modifyCell g r c f) r' c' =
      if r' = r ∧ c' = c ∧ r < g.length ∧ c < (g.getD r []).length then
        f (getCell g r c)
      else getCell g r' c' := by
  unfold modifyCell
  exact getCell_setCell g r c r' c' (f (getCell g r c))

theorem gridDims_modifyCell (g : Grid) (rows cols r c : ℕ) (f : Cell → Cell)
    (h : gridDims g rows cols) : gridDims (modifyCell g r c f) rows cols :=
  gridDims_setCell g rows cols r c _ h

/-- The row length seen by `getCell` in a well-formed grid. -/
theorem getD_length_of_dims {g : Grid} {rows cols : ℕ} (h : gridDims g rows cols)
    (r : ℕ) (hr : r < rows) : (g.getD r []).length = cols := by
  obtain ⟨h1, h2⟩ := h
  have hrl : r < g.length := by omega
  have hmem : g.getD r [] ∈ g := by
    rw [List.getD_eq_getElem g [] hrl]
    exact List.getElem_mem hrl
  exact h2 _ hmem

/-- `getCell_modifyCell` specialised to a well-formed grid and in-bounds
target. -/
theorem getCell_modifyCell_dims {g : Grid} {rows cols : ℕ}
    (h : gridDims g rows cols) (r c r' c' : ℕ) (hr : r < rows) (hc : c < cols)
    (f : Cell → Cell) :
    getCell (modifyCell g r c f) r' c' =
      if r' = r ∧ c' = c then f (getCell g r c) else getCell g r' c' := by
  rw [getCell_modifyCell]
  have h1 : r < g.length := by
    have := h.1
    omega
  have h2 : c < (g.getD r []).length := by
    rw [getD_length_of_dims h r hr]
    omega
  by_cases hx : r' = r ∧ c' = c
  · rw [if_pos ⟨hx.1, hx.2, h1, h2⟩, if_pos hx]
  · rw [if_neg (by tauto), if_neg hx]

/-! ### C2: preservation lemmas for the carve's primitive mutations -/

theorem wallsSubset_refl (g : Grid) : wallsSubset g g :=
  fun _ _ => ⟨id, id, id, id⟩

theorem wallsSubset_trans {g₁ g₂ g₃ : Grid} (h1 : wallsSubset g₁ g₂)
    (h2 : wallsSubset g₂ g₃) : wallsSubset g₁ g₃ := by
  intro r c
  obtain ⟨a1, b1, c1, d1⟩ := h1 r c
  obtain ⟨a2, b2, c2, d2⟩ := h2 r c
  exact ⟨fun h => a1 (a2 h), fun h => b1 (b2 h), fun h => c1 (c2 h),
    fun h => d1 (d2 h)⟩

theorem visitedLe_refl (g : Grid) : visitedLe g g := fun _ _ => id

theorem visitedLe_trans {g₁ g₂ g₃ : Grid} (h1 : visitedLe g₁ g₂)
    (h2 : visitedLe g₂ g₃) : visitedLe g₁ g₃ :=
  fun r c h => h2 r c (h1 r c h)

/-- A cell update that does not touch the `visited` flag leaves every
cell's `visited` flag unchanged. -/
theorem visited_modifyCell (g : Grid) (r c : ℕ) (f : Cell → Cell)
    (hf : ∀ a, (f a).visited = a.visited) (r' c' : ℕ) :
    (getCell (modifyCell g r c f) r' c').visited =
      (getCell g r' c').visited := by
  rw [getCell_modifyCell]
  split_ifs with h
  · obtain ⟨h1, h2, _, _⟩ := h
    subst h1
    subst h2
    exact hf _
  · rfl

/-- A cell update that can only clear wall flags yields a walls-subset. -/
theorem wallsSubset_modifyCell (g : Grid) (r c : ℕ) (f : Cell → Cell)
    (hf : ∀ a, ((f a).top = true → a.top = true) ∧
      ((f a).right = true → a.right = true) ∧
      ((f a).bottom = true → a.bottom = true) ∧
      ((f a).left = true → a.left = true)) :
    wallsSubset g (modifyCell g r c f) := by
  intro r' c'
  rw [getCell_modifyCell]
  split_ifs with h
  · obtain ⟨h1, h2, _, _⟩ := h
    subst h1
    subst h2
    exact hf _
  · exact ⟨id, id, id, id⟩

/-- A cell update that does not touch the wall flags leaves every cell's
wall flags unchanged. -/
theorem walls_modifyCell (g : Grid) (r c : ℕ) (f : Cell → Cell)
    (hf : ∀ a, (f a).top = a.top ∧ (f a).right = a.right ∧
      (f a).bottom = a.bottom ∧ (f a).left = a.left) (r' c' : ℕ) :
    (getCell (modifyCell g r c f) r' c').top = (getCell g r' c').top ∧
    (getCell (modifyCell g r c f) r' c').right = (getCell g r' c').right ∧
    (getCell (modifyCell g r c f) r' c').bottom = (getCell g r' c').bottom ∧
    (getCell (modifyCell g r c f) r' c').left = (getCell g r' c').left := by
  rw [getCell_modifyCell]
  split_ifs with h
  · obtain ⟨h1, h2, _, _⟩ := h
    subst h1
    subst h2
    exact hf _
  · exact ⟨rfl, rfl, rfl, rfl⟩

theorem removeWallBetween_visited (g : Grid) (cur nxt : ℕ × ℕ) (r' c' : ℕ) :
    (getCell (removeWallBetween g cur nxt) r' c').visited =
      (getCell g r' c').visited := by
  unfold removeWallBetween
  dsimp only
  split_ifs <;>
    first
    | rfl
    | (rw [visited_modifyCell, visited_modifyCell] <;> exact fun a => rfl)

theorem removeWallBetween_dims {g : Grid} {rows cols : ℕ}
    (h : gridDims g rows cols) (cur nxt : ℕ × ℕ) :
    gridDims (removeWallBetween g cur nxt) rows cols := by
  unfold removeWallBetween
  dsimp only
  split_ifs <;>
    first
    | exact h
    | exact gridDims_modifyCell _ _ _ _ _ _ (gridDims_modifyCell _ _ _ _ _ _ h)

theorem removeWallBetween_wallsSubset (g : Grid) (cur nxt : ℕ × ℕ) :
    wallsSubset g (removeWallBetween g cur nxt) := by
  unfold removeWallBetween
  dsimp only
  split_ifs <;>
    first
    | exact wallsSubset_refl g
    | exact wallsSubset_trans
        (wallsSubset_modifyCell _ _ _ _ (fun a => by
          refine ⟨?_, ?_, ?_, ?_⟩ <;> (intro h; first | exact h | simp at h)))
        (wallsSubset_modifyCell _ _ _ _ (fun a => by
          refine ⟨?_, ?_, ?_, ?_⟩ <;> (intro h; first | exact h | simp at h)))

/-! ### C2: reachability is monotone under wall removal -/

theorem flag_stays_false {a b : Bool} (himp : b = true → a = true)
    (ha : a = false) : b = false := by
  cases hb : b
  · rfl
  · rw [himp hb] at ha
    cases ha

theorem adjOpen_mono {g g' : Grid} {rows cols : ℕ} (h : wallsSubset g g')
    {p q : ℕ × ℕ} (hadj : adjOpen g rows cols p q) : adjOpen g' rows cols p q := by
  obtain ⟨hb1, hb2, hcase⟩ := hadj
  refine ⟨hb1, hb2, ?_⟩
  obtain ⟨w1, w2, w3, w4⟩ := h p.1 p.2
  rcases hcase with ⟨a, b, hw⟩ | ⟨a, b, hw⟩ | ⟨a, b, hw⟩ | ⟨a, b, hw⟩
  · exact Or.inl ⟨a, b, flag_stays_false w1 hw⟩
  · exact Or.inr (Or.inl ⟨a, b, flag_stays_false w3 hw⟩)
  · exact Or.inr (Or.inr (Or.inl ⟨a, b, flag_stays_false w2 hw⟩))
  · exact Or.inr (Or.inr (Or.inr ⟨a, b, flag_stays_false w4 hw⟩))

theorem reach_mono {g g' : Grid} {rows cols : ℕ} (h : wallsSubset g g')
    {p q : ℕ × ℕ} (hr : Reach g rows cols p q) : Reach g' rows cols p q :=
  Relation.ReflTransGen.mono (fun _ _ ha => adjOpen_mono h ha) hr

/-! ### C2: the unvisited-neighbour probe -/

theorem mem_unvisitedNeighbors {g : Grid} {rows cols r c : ℕ} {q : ℕ × ℕ}
    (hb : inBounds rows cols (r, c))
    (hq : q ∈ unvisitedNeighbors g r c rows cols) :
    inBounds rows cols q ∧ (getCell g q.1 q.2).visited = false ∧
      fullAdj rows cols (r, c) q := by
  obtain ⟨hbr, hbc⟩ := hb
  unfold unvisitedNeighbors at hq
  simp only [List.mem_append] at hq
  rcases hq with ((h | h) | h) | h
  · -- top neighbour (r-1, c)
    split_ifs at h with hcond
    · obtain ⟨hpos, hvis⟩ := hcond
      rw [List.mem_singleton] at h
      subst h
      refine ⟨⟨by omega, by omega⟩, by simpa using hvis,
        ⟨⟨hbr, hbc⟩, ⟨by omega, by omega⟩, Or.inl ⟨by omega, by omega⟩⟩⟩
    · cases h
  · -- right neighbour (r, c+1)
    split_ifs at h with hcond
    · obtain ⟨hpos, hvis⟩ := hcond
      rw [List.mem_singleton] at h
      subst h
      refine ⟨⟨by omega, by omega⟩, by simpa using hvis,
        ⟨⟨hbr, hbc⟩, ⟨by omega, by omega⟩,
          Or.inr (Or.inr (Or.inl ⟨by omega, by omega⟩))⟩⟩
    · cases h
  · -- bottom neighbour (r+1, c)
    split_ifs at h with hcond
    · obtain ⟨hpos, hvis⟩ := hcond
      rw [List.mem_singleton] at h
      subst h
      refine ⟨⟨by omega, by omega⟩, by simpa using hvis,
        ⟨⟨hbr, hbc⟩, ⟨by omega, by omega⟩,
          Or.inr (Or.inl ⟨by omega, by omega⟩)⟩⟩
    · cases h
  · -- left neighbour (r, c-1)
    split_ifs at h with hcond
    · obtain ⟨hpos, hvis⟩ := hcond
      rw [List.mem_singleton] at h
      subst h
      refine ⟨⟨by omega, by omega⟩, by simpa using hvis,
        ⟨⟨hbr, hbc⟩, ⟨by omega, by omega⟩,
          Or.inr (Or.inr (Or.inr ⟨by omega, by omega⟩))⟩⟩
    · cases h

theorem unvisitedNeighbors_nil {g : Grid} {rows cols r c : ℕ}
    (hb : inBounds rows cols (r, c))
    (hnil : unvisitedNeighbors g r c rows cols = [])
    (q : ℕ × ℕ) (hadj : fullAdj rows cols (r, c) q) :
    (getCell g q.1 q.2).visited = true := by
  obtain ⟨hbr, hbc⟩ := hb
  unfold unvisitedNeighbors at hnil
  simp only [List.append_eq_nil] at hnil
  obtain ⟨⟨⟨h1, h2⟩, h3⟩, h4⟩ := hnil
  obtain ⟨_, hqb, hcase⟩ := hadj
  rcases hcase with ⟨a, b⟩ | ⟨a, b⟩ | ⟨a, b⟩ | ⟨a, b⟩
  · -- q is above: q = (r-1, c)
    have hq : q = (r - 1, c) := by
      obtain ⟨q1, q2⟩ := q
      simp only at a b
      simp only [Prod.mk.injEq]
      omega
    subst hq
    by_contra hv
    have hne : (if 0 < r ∧ ¬(getCell g (r-1) c).visited = true
        then [((r-1 : ℕ), c)] else []) ≠ [] := by
      rw [if_pos ⟨by omega, by simpa using hv⟩]
      simp
    exact hne h1
  · -- q is below: q = (r+1, c)
    have hq : q = (r + 1, c) := by
      obtain ⟨q1, q2⟩ := q
      simp only at a b
      simp only [Prod.mk.injEq]
      omega
    subst hq
    by_contra hv
    have hne : (if r + 1 < rows ∧ ¬(getCell g (r+1) c).visited = true
        then [((r+1 : ℕ), c)] else []) ≠ [] := by
      rw [if_pos ⟨hqb.1, by simpa using hv⟩]
      simp
    exact hne h3
  · -- q is to the right: q = (r, c+1)
    have hq : q = (r, c + 1) := by
      obtain ⟨q1, q2⟩ := q
      simp only at a b
      simp only [Prod.mk.injEq]
      omega
    subst hq
    by_contra hv
    have hne : (if c + 1 < cols ∧ ¬(getCell g r (c+1)).visited = true
        then [(r, c+1)] else []) ≠ [] := by
      rw [if_pos ⟨hqb.2, by simpa using hv⟩]
      simp
    exact hne h2
  · -- q is to the left: q = (r, c-1)
    have hq : q = (r, c - 1) := by
      obtain ⟨q1, q2⟩ := q
      simp only at a b
      simp only [Prod.mk.injEq]
      omega
    subst hq
    by_contra hv
    have hne : (if 0 < c ∧ ¬(getCell g r (c-1)).visited = true
        then [(r, c-1)] else []) ≠ [] := by
      rw [if_pos ⟨by omega, by simpa using hv⟩]
      simp
    exact hne h4

/-! ### C2: the carve measure -/

theorem unvisitedCount_lt_of_newly_visited {g g' : Grid} {rows cols : ℕ}
    {p₀ : ℕ × ℕ} (hb : inBounds rows cols p₀)
    (hold : (getCell g p₀.1 p₀.2).visited = false)
    (hnew : (getCell g' p₀.1 p₀.2).visited = true)
    (hoth : ∀ p : ℕ × ℕ, p ≠ p₀ →
      (getCell g' p.1 p.2).visited = (getCell g p.1 p.2).visited) :
    unvisitedCount g' rows cols < unvisitedCount g rows cols := by
  apply Finset.card_lt_card
  rw [Finset.ssubset_iff_of_subset]
  · refine ⟨p₀, ?_, ?_⟩
    · simp only [Finset.mem_filter, Finset.mem_product, Finset.mem_range]
      exact ⟨⟨hb.1, hb.2⟩, hold⟩
    · simp only [Finset.mem_filter, Finset.mem_product, Finset.mem_range]
      intro hcon
      rw [hnew] at hcon
      cases hcon.2
  · intro p hp
    simp only [Finset.mem_filter, Finset.mem_product, Finset.mem_range] at hp ⊢
    refine ⟨hp.1, ?_⟩
    by_cases hpe : p = p₀
    · subst hpe
      rw [hnew] at hp
      cases hp.2
    · rw [← hoth p hpe]
      exact hp.2

theorem unvisitedCount_eq_of_visited_eq {g g' : Grid} (rows cols : ℕ)
    (h : ∀ p : ℕ × ℕ, (getCell g' p.1 p.2).visited = (getCell g p.1 p.2).visited) :
    unvisitedCount g' rows cols = unvisitedCount g rows cols := by
  unfold unvisitedCount
  congr 1
  apply Finset.filter_congr
  intro p _
  rw [h p]

/-! ### C2: removing the wall between two adjacent cells opens the edge -/

theorem adjOpen_removeWall {g : Grid} {rows cols : ℕ}
    (hdims : gridDims g rows cols) {cur nxt : ℕ × ℕ}
    (hb1 : inBounds rows cols cur) (hb2 : inBounds rows cols nxt)
    (hadj : fullAdj rows cols cur nxt) :
    adjOpen (removeWallBetween g cur nxt) rows cols cur nxt := by
  obtain ⟨_, _, hcase⟩ := hadj
  unfold removeWallBetween
  dsimp only
  rcases hcase with ⟨a, b⟩ | ⟨a, b⟩ | ⟨a, b⟩ | ⟨a, b⟩
  · -- nxt above cur
    rw [if_pos (show (nxt.1 : ℤ) - cur.1 = -1 by omega)]
    refine ⟨hb1, hb2, Or.inl ⟨a, b, ?_⟩⟩
    have hd1 : gridDims (modifyCell g cur.1 cur.2
        (fun x => { x with top := false })) rows cols :=
      gridDims_modifyCell _ _ _ _ _ _ hdims
    rw [getCell_modifyCell_dims hd1 nxt.1 nxt.2 cur.1 cur.2 hb2.1 hb2.2]
    rw [if_neg (by omega)]
    rw [getCell_modifyCell_dims hdims cur.1 cur.2 cur.1 cur.2 hb1.1 hb1.2]
    rw [if_pos ⟨rfl, rfl⟩]
  · -- nxt below cur
    rw [if_neg (show ¬((nxt.1 : ℤ) - cur.1 = -1) by omega)]
    rw [if_pos (show (nxt.1 : ℤ) - cur.1 = 1 by omega)]
    refine ⟨hb1, hb2, Or.inr (Or.inl ⟨a, b, ?_⟩)⟩
    have hd1 : gridDims (modifyCell g cur.1 cur.2
        (fun x => { x with bottom := false })) rows cols :=
      gridDims_modifyCell _ _ _ _ _ _ hdims
    rw [getCell_modifyCell_dims hd1 nxt.1 nxt.2 cur.1 cur.2 hb2.1 hb2.2]
    rw [if_neg (by omega)]
    rw [getCell_modifyCell_dims hdims cur.1 cur.2 cur.1 cur.2 hb1.1 hb1.2]
    rw [if_pos ⟨rfl, rfl⟩]
  · -- nxt to the right of cur
    rw [if_neg (show ¬((nxt.1 : ℤ) - cur.1 = -1) by omega)]
    rw [if_neg (show ¬((nxt.1 : ℤ) - cur.1 = 1) by omega)]
    rw [if_pos (show (nxt.2 : ℤ) - cur.2 = 1 by omega)]
    refine ⟨hb1, hb2, Or.inr (Or.inr (Or.inl ⟨a, b, ?_⟩))⟩
    have hd1 : gridDims (modifyCell g cur.1 cur.2
        (fun x => { x with right := false })) rows cols :=
      gridDims_modifyCell _ _ _ _ _ _ hdims
    rw [getCell_modifyCell_dims hd1 nxt.1 nxt.2 cur.1 cur.2 hb2.1 hb2.2]
    rw [if_neg (by omega)]
    rw [getCell_modifyCell_dims hdims cur.1 cur.2 cur.1 cur.2 hb1.1 hb1.2]
    rw [if_pos ⟨rfl, rfl⟩]
  · -- nxt to the left of cur
    rw [if_neg (show ¬((nxt.1 : ℤ) - cur.1 = -1) by omega)]
    rw [if_neg (show ¬((nxt.1 : ℤ) - cur.1 = 1) by omega)]
    rw [if_neg (show ¬((nxt.2 : ℤ) - cur.2 = 1) by omega)]
    rw [if_pos (show (nxt.2 : ℤ) - cur.2 = -1 by omega)]
    refine ⟨hb1, hb2, Or.inr (Or.inr (Or.inr ⟨a, b, ?_⟩))⟩
    have hd1 : gridDims (modifyCell g cur.1 cur.2
        (fun x => { x with left := false })) rows cols :=
      gridDims_modifyCell _ _ _ _ _ _ hdims
    rw [getCell_modifyCell_dims hd1 nxt.1 nxt.2 cur.1 cur.2 hb2.1 hb2.2]
    rw [if_neg (by omega)]
    rw [getCell_modifyCell_dims hdims cur.1 cur.2 cur.1 cur.2 hb1.1 hb1.2]
    rw [if_pos ⟨rfl, rfl⟩]

/-! ### C2: one carve iteration preserves the invariant and decreases
the measure `2 * unvisited + stackLength` -/

theorem carveStep_spec {rows cols : ℕ} {s : CarveSt} (hinv : CarveInv rows cols s)
    (hs : s.stack ≠ []) :
    CarveInv rows cols (carveStep rows cols s) ∧
    visitedLe s.grid (carveStep rows cols s).grid ∧
    wallsSubset s.grid (carveStep rows cols s).grid ∧
    2 * unvisitedCount (carveStep rows cols s).grid rows cols +
        (carveStep rows cols s).stack.length <
      2 * unvisitedCount s.grid rows cols + s.stack.length := by
  obtain ⟨g, stack, seed⟩ := s
  cases stack with
  | nil => exact absurd rfl hs
  | cons cur rest =>
  dsimp only at hinv ⊢
  have hbcur : inBounds rows cols cur :=
    hinv.stackBounds cur (List.mem_cons_self cur rest)
  cases hns : unvisitedNeighbors g cur.1 cur.2 rows cols with
  | nil =>
    -- dead end: pop
    have hstep : carveStep rows cols ⟨g, cur :: rest, seed⟩ =
        ⟨g, rest, seed⟩ := by
      unfold carveStep
      dsimp only
      rw [hns]
    rw [hstep]
    refine ⟨⟨hinv.dims, fun p hp => hinv.stackBounds p (List.mem_cons_of_mem _ hp),
      fun p hp => hinv.stackVisited p (List.mem_cons_of_mem _ hp),
      hinv.reach, ?_⟩, visitedLe_refl g, wallsSubset_refl g, by
        dsimp only
        simp only [List.length_cons]
        omega⟩
    intro p hpb hpv hpstack q hq
    by_cases hpc : p = cur
    · subst hpc
      exact unvisitedNeighbors_nil hpb hns q hq
    · exact hinv.closedOff p hpb hpv
        (fun hmem => by
          rcases List.mem_cons.mp hmem with h | h
          · exact hpc h
          · exact hpstack h) q hq
  | cons n₀ ns' =>
    -- visit a fresh neighbour
    have hlen : 0 < (n₀ :: ns').length := by simp
    have hidx : (drawNat seed (n₀ :: ns').length).1 < (n₀ :: ns').length :=
      drawNat_lt seed (n₀ :: ns').length hlen
    set nxt := (n₀ :: ns').getD (drawNat seed (n₀ :: ns').length).1 (0, 0)
      with hnxt
    have hmem : nxt ∈ unvisitedNeighbors g cur.1 cur.2 rows cols := by
      rw [hns, hnxt, List.getD_eq_getElem _ (0, 0) hidx]
      exact List.getElem_mem hidx
    obtain ⟨hbn, hvn, hadj⟩ := mem_unvisitedNeighbors hbcur hmem
    replace hadj : fullAdj rows cols cur nxt := hadj
    have hstep : carveStep rows cols ⟨g, cur :: rest, seed⟩ =
        ⟨modifyCell (removeWallBetween g cur nxt) nxt.1 nxt.2
          (fun a => { a with visited := true }),
         nxt :: cur :: rest, (drawNat seed (n₀ :: ns').length).2⟩ := by
      unfold carveStep
      dsimp only
      rw [hns]
    set g1 := removeWallBetween g cur nxt with hg1
    set g2 := modifyCell g1 nxt.1 nxt.2 (fun a => { a with visited := true })
      with hg2
    have hd1 : gridDims g1 rows cols := removeWallBetween_dims hinv.dims cur nxt
    have hd2 : gridDims g2 rows cols := gridDims_modifyCell _ _ _ _ _ _ hd1
    have hvis1 : ∀ r c, (getCell g1 r c).visited = (getCell g r c).visited :=
      fun r c => removeWallBetween_visited g cur nxt r c
    have hvis2 : ∀ p : ℕ × ℕ, p ≠ nxt →
        (getCell g2 p.1 p.2).visited = (getCell g p.1 p.2).visited := by
      intro p hp
      rw [hg2, getCell_modifyCell_dims hd1 nxt.1 nxt.2 p.1 p.2 hbn.1 hbn.2]
      rw [if_neg (by
        intro hcon
        exact hp (Prod.ext hcon.1 hcon.2))]
      exact hvis1 p.1 p.2
    have hvisn : (getCell g2 nxt.1 nxt.2).visited = true := by
      rw [hg2, getCell_modifyCell_dims hd1 nxt.1 nxt.2 nxt.1 nxt.2 hbn.1 hbn.2]
      rw [if_pos ⟨rfl, rfl⟩]
    have hws1 : wallsSubset g g1 := removeWallBetween_wallsSubset g cur nxt
    have hws2 : wallsSubset g1 g2 := by
      rw [hg2]
      exact wallsSubset_modifyCell _ _ _ _ (fun a =>
        ⟨fun h => h, fun h => h, fun h => h, fun h => h⟩)
    have hws : wallsSubset g g2 := wallsSubset_trans hws1 hws2
    have hvle : visitedLe g g2 := by
      intro r c h
      by_cases hp : ((r, c) : ℕ × ℕ) = nxt
      · have hco : nxt.1 = r ∧ nxt.2 = c := by
          rw [← hp]
          exact ⟨rfl, rfl⟩
        rw [← hco.1, ← hco.2]
        exact hvisn
      · rw [hvis2 (r, c) hp]
        exact h
    have hedge : adjOpen g2 rows cols cur nxt := by
      apply adjOpen_mono hws2
      rw [hg1]
      exact adjOpen_removeWall hinv.dims hbcur hbn hadj
    rw [hstep]
    refine ⟨⟨hd2, ?_, ?_, ?_, ?_⟩, hvle, hws, ?_⟩
    · -- stack bounds
      intro p hp
      rcases List.mem_cons.mp hp with h | h
      · rw [h]; exact hbn
      · exact hinv.stackBounds p h
    · -- stack visited
      intro p hp
      rcases List.mem_cons.mp hp with h | h
      · rw [h]; exact hvisn
      · exact hvle p.1 p.2 (hinv.stackVisited p h)
    · -- reach
      intro p hpb hpv
      by_cases hp : p = nxt
      · subst hp
        have hcurv : (getCell g cur.1 cur.2).visited = true :=
          hinv.stackVisited cur (List.mem_cons_self cur rest)
        have hreach_cur : Reach g2 rows cols (rows - 1, 0) cur :=
          reach_mono hws (hinv.reach cur hbcur hcurv)
        exact Relation.ReflTransGen.tail hreach_cur hedge
      · rw [hvis2 p hp] at hpv
        exact reach_mono hws (hinv.reach p hpb hpv)
    · -- closedOff
      intro p hpb hpv hpstack q hq
      have hpc : p ∉ cur :: rest := by
        intro hmem2
        exact hpstack (List.mem_cons_of_mem _ hmem2)
      have hpn : p ≠ nxt := by
        intro he
        exact hpstack (he ▸ List.mem_cons_self nxt (cur :: rest))
      rw [hvis2 p hpn] at hpv
      have hqv := hinv.closedOff p hpb hpv hpc q hq
      exact hvle q.1 q.2 hqv
    · -- measure strictly decreases
      dsimp only
      have hlt : unvisitedCount g2 rows cols < unvisitedCount g rows cols := by
        apply unvisitedCount_lt_of_newly_visited hbn _ hvisn hvis2
        rw [← hvis1 nxt.1 nxt.2] at hvn
        rw [← hvis1 nxt.1 nxt.2]
        exact hvn
      simp only [List.length_cons]
      omega

/-! ### C2: the carve loop runs to the empty stack -/

theorem carveLoop_spec (rows cols : ℕ) (fuel : ℕ) :
    ∀ s : CarveSt, CarveInv rows cols s →
    2 * unvisitedCount s.grid rows cols + s.stack.length ≤ fuel →
    (carveLoop rows cols fuel s).stack = [] ∧
    CarveInv rows cols (carveLoop rows cols fuel s) ∧
    visitedLe s.grid (carveLoop rows cols fuel s).grid ∧
    wallsSubset s.grid (carveLoop rows cols fuel s).grid := by
  induction fuel with
  | zero =>
    intro s hinv hfuel
    have hempty : s.stack = [] := List.length_eq_zero.mp (by omega)
    unfold carveLoop
    exact ⟨hempty, hinv, visitedLe_refl _, wallsSubset_refl _⟩
  | succ fuel ih =>
    intro s hinv hfuel
    cases hstack : s.stack with
    | nil =>
      have hloop : carveLoop rows cols (fuel+1) s = s := by
        conv_lhs => unfold carveLoop
        rw [hstack]
      rw [hloop]
      exact ⟨hstack, hinv, visitedLe_refl _, wallsSubset_refl _⟩
    | cons cur rest =>
      have hne : s.stack ≠ [] := by rw [hstack]; simp
      have hloop : carveLoop rows cols (fuel+1) s =
          carveLoop rows cols fuel (carveStep rows cols s) := by
        conv_lhs => unfold carveLoop
        rw [hstack]
      obtain ⟨hinv', hvle', hws', hmeas'⟩ := carveStep_spec hinv hne
      have hfuel' : 2 * unvisitedCount (carveStep rows cols s).grid rows cols +
          (carveStep rows cols s).stack.length ≤ fuel := by omega
      obtain ⟨he, hi, hv, hw⟩ := ih (carveStep rows cols s) hinv' hfuel'
      rw [hloop]
      exact ⟨he, hi, visitedLe_trans hvle' hv, wallsSubset_trans hws' hw⟩

/-! ### C2: the full lattice is connected, so the carve visits all cells -/

theorem chain_to_row (rows cols : ℕ) (hc : 1 ≤ cols) :
    ∀ k, k < rows →
      Relation.ReflTransGen (fullAdj rows cols) (rows - 1, 0) (rows - 1 - k, 0) := by
  intro k
  induction k with
  | zero =>
    intro _
    have he : rows - 1 - 0 = rows - 1 := by omega
    rw [he]
  | succ k ih =>
    intro hk
    apply Relation.ReflTransGen.tail (ih (by omega))
    refine ⟨⟨by omega, by omega⟩, ⟨by omega, by omega⟩, Or.inl ⟨by
      show rows - 1 - (k+1) + 1 = rows - 1 - k
      omega, rfl⟩⟩

theorem chain_to_col (rows cols : ℕ) (r : ℕ) (hr : r < rows) :
    ∀ c, c < cols → Relation.ReflTransGen (fullAdj rows cols) (r, 0) (r, c) := by
  intro c
  induction c with
  | zero => intro _; exact Relation.ReflTransGen.refl
  | succ c ih =>
    intro hc
    refine Relation.ReflTransGen.tail (ih (by omega)) ?_
    exact ⟨⟨hr, by omega⟩, ⟨hr, hc⟩, Or.inr (Or.inr (Or.inl ⟨rfl, rfl⟩))⟩

theorem full_reach_chain (rows cols : ℕ) (_hr : 1 ≤ rows) (hc : 1 ≤ cols)
    (p : ℕ × ℕ) (hp : inBounds rows cols p) :
    Relation.ReflTransGen (fullAdj rows cols) (rows - 1, 0) p := by
  obtain ⟨p1, p2⟩ := p
  have hp1 : p1 < rows := hp.1
  have h1 : Relation.ReflTransGen (fullAdj rows cols) (rows - 1, 0) (p1, 0) := by
    have hk := chain_to_row rows cols hc (rows - 1 - p1) (by omega)
    have he : rows - 1 - (rows - 1 - p1) = p1 := by omega
    rw [he] at hk
    exact hk
  exact h1.trans (chain_to_col rows cols p1 hp1 p2 hp.2)

theorem all_visited_of_closed (rows cols : ℕ) (g : Grid)
    (hr : 1 ≤ rows) (hc : 1 ≤ cols)
    (hstart : (getCell g (rows - 1) 0).visited = true)
    (hclosed : ∀ p, inBounds rows cols p →
      (getCell g p.1 p.2).visited = true → ∀ q, fullAdj rows cols p q →
      (getCell g q.1 q.2).visited = true) :
    ∀ p, inBounds rows cols p → (getCell g p.1 p.2).visited = true := by
  intro p hp
  have hchain := full_reach_chain rows cols hr hc p hp
  induction hchain with
  | refl => exact hstart
  | tail h1 h2 ih => exact hclosed _ h2.1 (ih h2.1) _ h2

/-! ### C2: the initial carve state -/

theorem getD_replicate {α : Type} (n i : ℕ) (a d : α) :
    (List.replicate n a).getD i d = if i < n then a else d := by
  rw [List.getD_eq_getElem?_getD]
  by_cases h : i < n
  · rw [List.getElem?_replicate_of_lt h]
    simp [h]
  · rw [if_neg h]
    rw [List.getElem?_eq_none (by simpa using h)]
    rfl

theorem getCell_initGrid (cols rows r c : ℕ) :
    getCell (initGrid cols rows) r c = initCell := by
  unfold getCell initGrid
  rw [getD_replicate]
  by_cases h : r < rows
  · rw [if_pos h, getD_replicate]
    by_cases h2 : c < cols
    · rw [if_pos h2]
    · rw [if_neg h2]
  · rw [if_neg h]
    rfl

theorem initGrid_dims (cols rows : ℕ) : gridDims (initGrid cols rows) rows cols := by
  refine ⟨List.length_replicate _ _, ?_⟩
  intro row hrow
  rw [List.eq_of_mem_replicate hrow]
  exact List.length_replicate _ _

theorem unvisitedCount_le (g : Grid) (rows cols : ℕ) :
    unvisitedCount g rows cols ≤ rows * cols := by
  unfold unvisitedCount
  calc ((Finset.range rows ×ˢ Finset.range cols).filter _).card
      ≤ (Finset.range rows ×ˢ Finset.range cols).card :=
        Finset.card_filter_le _ _
    _ = rows * cols := by
        rw [Finset.card_product, Finset.card_range, Finset.card_range]

/-- The carve alone (`carvedGrid`) visits every cell and connects every
cell to the bottom-left start cell through open passages: the recursive
backtracker's spanning connectivity. -/
theorem carvedGrid_spec (cols rows seed : ℕ) (hr : 1 ≤ rows) (hc : 1 ≤ cols) :
    gridDims (carvedGrid cols rows seed).grid rows cols ∧
    (∀ p, inBounds rows cols p →
      (getCell (carvedGrid cols rows seed).grid p.1 p.2).visited = true) ∧
    (∀ p, inBounds rows cols p →
      Reach (carvedGrid cols rows seed).grid rows cols (rows - 1, 0) p) := by
  have hd0 : gridDims (initGrid cols rows) rows cols := initGrid_dims cols rows
  set g0 := modifyCell (initGrid cols rows) (rows-1) 0
    (fun a => { a with visited := true }) with hg0
  have hd1 : gridDims g0 rows cols := gridDims_modifyCell _ _ _ _ _ _ hd0
  have hstart0 : (getCell g0 (rows-1) 0).visited = true := by
    rw [hg0, getCell_modifyCell_dims hd0 (rows-1) 0 (rows-1) 0 (by omega) (by omega)]
    rw [if_pos ⟨rfl, rfl⟩]
  have hother0 : ∀ p : ℕ × ℕ, p ≠ (rows-1, 0) →
      (getCell g0 p.1 p.2).visited = false := by
    intro p hp
    rw [hg0, getCell_modifyCell_dims hd0 (rows-1) 0 p.1 p.2 (by omega) (by omega)]
    rw [if_neg (by
      intro hcon
      exact hp (Prod.ext hcon.1 hcon.2))]
    rw [getCell_initGrid]
    rfl
  have hinv0 : CarveInv rows cols ⟨g0, [(rows-1, 0)], seed⟩ := by
    refine ⟨hd1, ?_, ?_, ?_, ?_⟩
    · intro p hp
      rw [List.mem_singleton] at hp
      subst hp
      exact ⟨by omega, by omega⟩
    · intro p hp
      rw [List.mem_singleton] at hp
      subst hp
      exact hstart0
    · intro p hpb hpv
      by_cases hp : p = (rows-1, 0)
      · subst hp
        exact Relation.ReflTransGen.refl
      · rw [hother0 p hp] at hpv
        cases hpv
    · intro p hpb hpv hpstack q hq
      by_cases hp : p = (rows-1, 0)
      · exact absurd (hp ▸ List.mem_singleton.mpr rfl) hpstack
      · rw [hother0 p hp] at hpv
        cases hpv
  have hfuel : 2 * unvisitedCount g0 rows cols +
      ([((rows-1 : ℕ), (0 : ℕ))] : List (ℕ × ℕ)).length ≤ 2*cols*rows+1 := by
    have hle := unvisitedCount_le g0 rows cols
    simp only [List.length_singleton]
    have hassoc : 2*cols*rows = 2*(rows*cols) := by ring
    omega
  obtain ⟨hempty, hinv, hvle, _⟩ :=
    carveLoop_spec rows cols (2*cols*rows+1) ⟨g0, [(rows-1, 0)], seed⟩ hinv0 hfuel
  have hgrid : (carvedGrid cols rows seed).grid =
      (carveLoop rows cols (2*cols*rows+1) ⟨g0, [(rows-1, 0)], seed⟩).grid := by
    unfold carvedGrid
    rw [← hg0]
  have hallvis : ∀ p, inBounds rows cols p →
      (getCell (carvedGrid cols rows seed).grid p.1 p.2).visited = true := by
    rw [hgrid]
    apply all_visited_of_closed rows cols _ hr hc
    · exact hvle (rows-1) 0 hstart0
    · intro p hpb hpv q hq
      exact hinv.closedOff p hpb hpv (by rw [hempty]; simp) q hq
  refine ⟨by rw [hgrid]; exact hinv.dims, hallvis, ?_⟩
  intro p hpb
  have := hinv.reach p hpb (by
    have hv := hallvis p hpb
    rw [hgrid] at hv
    exact hv)
  rw [hgrid]
  exact this

/-! ### C2: the extra loop-adding passages only remove walls -/

theorem extraPassage_wallsSubset (rows cols : ℕ) (p : Grid × ℕ) :
    wallsSubset p.1 (extraPassage rows cols p).1 := by
  unfold extraPassage
  dsimp only
  split_ifs <;>
    first
    | exact wallsSubset_refl _
    | exact wallsSubset_trans
        (wallsSubset_modifyCell _ _ _ _ (fun a => by
          refine ⟨?_, ?_, ?_, ?_⟩ <;> (intro h; first | exact h | simp at h)))
        (wallsSubset_modifyCell _ _ _ _ (fun a => by
          refine ⟨?_, ?_, ?_, ?_⟩ <;> (intro h; first | exact h | simp at h)))

theorem foldl_extraPassage_wallsSubset (rows cols : ℕ) (l : List ℕ) :
    ∀ p : Grid × ℕ,
      wallsSubset p.1 ((l.foldl (fun q _ => extraPassage rows cols q) p).1) := by
  induction l with
  | nil => intro p; exact wallsSubset_refl _
  | cons x xs ih =>
    intro p
    rw [List.foldl_cons]
    exact wallsSubset_trans (extraPassage_wallsSubset rows cols p) (ih _)

/-- Every difficulty tier yields a grid of at least 3 × 5 cells. -/
theorem level_dims_pos (lvl : ℕ) : 1 ≤ levelCols lvl ∧ 1 ≤ levelRows lvl := by
  unfold levelCols levelRows levelWidth levelHeight levelCellSize getDifficulty
  split_ifs <;> exact ⟨by decide, by decide⟩

/-- C2: for every level number (`n+1` ranges over all levels ≥ 1), the
recursive-backtracking carve alone visits every cell of the grid and
connects every cell — in particular the top-right goal cell — to the
bottom-left start cell through open passages, **before** the extra
loop-adding passages are opened; and in the final grid (after the extra
passages, which only remove walls) a breadth-first search over open cell
adjacencies from the start cell still reaches the goal cell.  The final
conjunct anchors this grid to `generateLevel`: its wall list is computed
from exactly this grid. -/
theorem c2_maze_connectivity (n : ℕ) :
    (∀ p, inBounds (levelRows (n+1)) (levelCols (n+1)) p →
      (getCell (carvedGrid (levelCols (n+1)) (levelRows (n+1)) ((n+1) * 7919)).grid
        p.1 p.2).visited = true) ∧
    (∀ p, inBounds (levelRows (n+1)) (levelCols (n+1)) p →
      Reach (carvedGrid (levelCols (n+1)) (levelRows (n+1)) ((n+1) * 7919)).grid
        (levelRows (n+1)) (levelCols (n+1)) (levelRows (n+1) - 1, 0) p) ∧
    Reach (generateMazeGrid (levelCols (n+1)) (levelRows (n+1)) ((n+1) * 7919)).1
      (levelRows (n+1)) (levelCols (n+1)) (levelRows (n+1) - 1, 0)
      (0, levelCols (n+1) - 1) ∧
    (generateLevel (n+1)).walls =
      mazeToWalls
        (generateMazeGrid (levelCols (n+1)) (levelRows (n+1)) ((n+1) * 7919)).1
        (levelCols (n+1)) (levelRows (n+1)) ((levelCellSize (n+1) : ℤ))
        ((levelWidth (n+1) : ℤ)) ((levelHeight (n+1) : ℤ)) := by
  obtain ⟨hc, hr⟩ := level_dims_pos (n+1)
  obtain ⟨hd, hvis, hreach⟩ :=
    carvedGrid_spec (levelCols (n+1)) (levelRows (n+1)) ((n+1) * 7919) hr hc
  refine ⟨hvis, hreach, ?_, rfl⟩
  have hws : wallsSubset
      (carvedGrid (levelCols (n+1)) (levelRows (n+1)) ((n+1) * 7919)).grid
      (generateMazeGrid (levelCols (n+1)) (levelRows (n+1)) ((n+1) * 7919)).1 := by
    unfold generateMazeGrid
    dsimp only
    exact foldl_extraPassage_wallsSubset _ _ _ _
  apply reach_mono hws
  exact hreach (0, levelCols (n+1) - 1) ⟨by omega, by omega⟩

/-- Witness for C2 at level 1 (grid 3 × 5): the carve visits the goal
cell and the final grid connects start to goal. -/
theorem c2_maze_connectivity_witness :
    (getCell (carvedGrid (levelCols 1) (levelRows 1) (1 * 7919)).grid
      0 (levelCols 1 - 1)).visited = true ∧
    Reach (generateMazeGrid (levelCols 1) (levelRows 1) (1 * 7919)).1
      (levelRows 1) (levelCols 1) (levelRows 1 - 1, 0) (0, levelCols 1 - 1) :=
  ⟨(c2_maze_connectivity 0).1 (0, levelCols 1 - 1) ⟨by decide, by decide⟩,
   (c2_maze_connectivity 0).2.2.1⟩

/-!
## C9: placement validity

The placement loops draw cell centres `offset + col*cellSize + cellSize/2`
(doubled: `o + 2*i*cs + cs`), check distances against the accumulated
entities and against the start/goal, and store the accepted positions
`Math.round`ed (holes excepted, which are stored unrounded).  The proofs
below track, for every stored entity, a lower bound on its squared
distance (in doubled coordinates, so a real distance `t` corresponds to
`sep2 = (2t)^2`) to the start point and to every same-category entity.
-/

theorem sep2_comm (x1 y1 x2 y2 : ℤ) : sep2 x1 y1 x2 y2 = sep2 x2 y2 x1 y1 := by
  unfold sep2; ring

theorem roundD_eq (x : ℤ) : roundD x = x + x % 2 := by
  unfold roundD; split <;> omega

theorem roundD_even {x : ℤ} (h : x % 2 = 0) : roundD x = x := by
  rw [roundD_eq, h, add_zero]

theorem centerC_mod (o cs : ℤ) (i : ℕ) : centerC o cs i % 2 = (o + cs) % 2 := by
  unfold centerC
  have h : 2*(i:ℤ)*cs = 2*((i:ℤ)*cs) := by ring
  rw [h]; omega

theorem roundD_centerC (o cs : ℤ) (i : ℕ) :
    roundD (centerC o cs i) = centerC o cs i + (o + cs) % 2 := by
  rw [roundD_eq, centerC_mod]

theorem rcenter_sub (o cs : ℤ) (i j : ℕ) :
    roundD (centerC o cs i) - roundD (centerC o cs j) = 2*((i:ℤ) - j)*cs := by
  rw [roundD_centerC, roundD_centerC]; unfold centerC; ring

/-- Squared triangle inequality for a one-coordinate shift by `d ∈ [0,1]`:
a point at distance at least `t` stays at distance at least `t-1`. -/
theorem c9_shift_sq {dx dy t d : ℤ} (ht : 1 ≤ t) (hd0 : 0 ≤ d) (hd1 : d ≤ 1)
    (h : t*t ≤ dx*dx + dy*dy) : (t-1)*(t-1) ≤ (dx+d)*(dx+d) + dy*dy := by
  rcases le_or_lt 0 dx with hx | hx
  · nlinarith [mul_nonneg hx hd0]
  · rcases le_or_lt t (-dx) with htx | htx
    · have h1 : 0 ≤ (-dx - d) - (t - 1) := by omega
      have h2 : 0 ≤ (-dx - d) + (t - 1) := by omega
      nlinarith [mul_nonneg h1 h2, sq_nonneg dy]
    · have h1 : 0 ≤ (-dx) * (1 - d) := by
        apply mul_nonneg <;> omega
      nlinarith

theorem c9_ge9_of_shift {cs v : ℤ} (hcs : 50 ≤ cs) (h : (4*cs-1)*(4*cs-1) ≤ v) :
    9*(cs*cs) ≤ v := by nlinarith

/-- An integer square that is at least 2 is at least 4. -/
theorem int_sq_ge4 {j : ℤ} (h : 2 ≤ j*j) : 4 ≤ j*j := by
  rcases le_or_lt 2 j with h2 | h2
  · nlinarith
  · rcases le_or_lt j (-2) with h3 | h3
    · nlinarith
    · nlinarith [mul_nonneg (by omega : (0:ℤ) ≤ j + 1) (by omega : (0:ℤ) ≤ 1 - j)]

/-- An integer whose square is at most 3 lies in `[-1, 1]`. -/
theorem int_sq_le1 {j : ℤ} (h : j*j ≤ 3) : -1 ≤ j ∧ j ≤ 1 := by
  constructor
  · by_contra hc; push_neg at hc; nlinarith
  · by_contra hc; push_neg at hc; nlinarith

/-- Bounce-pad / start distance: an exact cell-centre distance of at least
`1.5*cs` survives the half-pixel x-rounding shift with the bound intact,
because the exact squared distance is `4*cs^2*(I^2+J^2)` and `I^2+J^2 ≥ 3`
forces one component to be at least `2` cells. -/
theorem c9_pad_start {cs I J d : ℤ} (hcs : 50 ≤ cs) (hd0 : 0 ≤ d) (hd1 : d ≤ 1)
    (h : 9*(cs*cs) ≤ (2*I*cs)*(2*I*cs) + (2*J*cs)*(2*J*cs)) :
    9*(cs*cs) ≤ (2*I*cs + d)*(2*I*cs + d) + (2*J*cs)*(2*J*cs) := by
  have hIJ : 3 ≤ I*I + J*J := by
    by_contra hc; push_neg at hc
    have h2 : I*I + J*J ≤ 2 := by omega
    nlinarith
  rcases le_or_lt 2 (J*J) with hJ | hJ
  · have hJ4 : 4 ≤ J*J := int_sq_ge4 hJ
    nlinarith [sq_nonneg (2*I*cs + d)]
  · have hI : 2 ≤ I*I := by omega
    have hI4 : 4 ≤ I*I := int_sq_ge4 hI
    rcases le_or_lt 0 I with hIp | hIp
    · have hI2 : 2 ≤ I := by nlinarith
      have : 4*cs ≤ 2*I*cs + d := by nlinarith
      nlinarith [sq_nonneg (2*J*cs)]
    · have hI2 : I ≤ -2 := by nlinarith
      have hb : 2*I*cs + d ≤ -(4*cs - 1) := by nlinarith
      have : (4*cs-1)*(4*cs-1) ≤ (2*I*cs + d)*(2*I*cs + d) := by nlinarith
      nlinarith [sq_nonneg (2*J*cs)]

/-- Pairwise separation: a candidate checked at squared distance `≥ T`
against an already-rounded entity keeps `≥ T` after its own rounding, for
any threshold `T` with `8cs²+4cs+1 < T ≤ 16cs²`, because the exact
inter-centre squared distance is a multiple of `4cs²`. -/
theorem c9_pair_of_check {cs I J d T : ℤ} (hcs : 50 ≤ cs) (hd0 : 0 ≤ d) (hd1 : d ≤ 1)
    (hT : 8*(cs*cs) + 4*cs + 1 < T) (hT' : T ≤ 16*(cs*cs))
    (h : T ≤ (2*I*cs - d)*(2*I*cs - d) + (2*J*cs)*(2*J*cs)) :
    T ≤ (2*I*cs)*(2*I*cs) + (2*J*cs)*(2*J*cs) := by
  by_contra hc
  push_neg at hc
  have hIJ : I*I + J*J ≤ 3 := by
    by_contra hij; push_neg at hij
    have h4 : 4 ≤ I*I + J*J := by omega
    nlinarith
  have hI : -1 ≤ I ∧ I ≤ 1 := int_sq_le1 (by nlinarith [sq_nonneg J])
  have hJ : -1 ≤ J ∧ J ≤ 1 := int_sq_le1 (by nlinarith [sq_nonneg I])
  have hxb : (2*I*cs - d)*(2*I*cs - d) ≤ (2*cs+1)*(2*cs+1) := by
    have h1 : 0 ≤ (2*cs+1) - (2*I*cs - d) := by nlinarith [hI.2]
    have h2 : 0 ≤ (2*cs+1) + (2*I*cs - d) := by nlinarith [hI.1]
    nlinarith [mul_nonneg h1 h2]
  have hJ1 : J*J ≤ 1 := by
    nlinarith [mul_nonneg (by omega : (0:ℤ) ≤ J + 1) (by omega : (0:ℤ) ≤ 1 - J)]
  have hyb : (2*J*cs)*(2*J*cs) ≤ 4*(cs*cs) := by
    nlinarith [mul_nonneg (by nlinarith : (0:ℤ) ≤ 1 - J*J) (mul_self_nonneg cs)]
  nlinarith

/-- Two distinct cell centres are at least one `cellSize` apart, hence
more than `0.8*cellSize`. -/
theorem c9_nonzero_pair {cs I J : ℤ} (hIJ : ¬(I = 0 ∧ J = 0)) :
    64*(cs*cs) ≤ 25*((2*I*cs)*(2*I*cs) + (2*J*cs)*(2*J*cs)) := by
  have h1 : 1 ≤ I*I + J*J := by
    rcases (not_and_or.mp hIJ) with hI | hJ
    · have : 1 ≤ I*I := by rcases lt_or_gt_of_ne hI with h' | h' <;> nlinarith
      nlinarith [sq_nonneg J]
    · have : 1 ≤ J*J := by rcases lt_or_gt_of_ne hJ with h' | h' <;> nlinarith
      nlinarith [sq_nonneg I]
  nlinarith [mul_self_nonneg cs]

/-- The `0.8*cellSize` top-up check against a rounded coin implies the
exact inter-centre bound (the centres cannot coincide). -/
theorem c9_coin_pair {cs I J d : ℤ} (hcs : 50 ≤ cs) (hd0 : 0 ≤ d) (hd1 : d ≤ 1)
    (h : 64*(cs*cs) ≤ 25*((2*I*cs - d)*(2*I*cs - d) + (2*J*cs)*(2*J*cs))) :
    64*(cs*cs) ≤ 25*((2*I*cs)*(2*I*cs) + (2*J*cs)*(2*J*cs)) := by
  by_cases hIJ : I = 0 ∧ J = 0
  · obtain ⟨hI, hJ⟩ := hIJ; subst hI; subst hJ
    simp only [mul_zero, zero_mul, zero_sub, add_zero] at h
    nlinarith
  · exact c9_nonzero_pair hIJ

theorem distLt_false_iff {dx dy a b c : ℤ} :
    distLt dx dy a b c = false ↔ 4*(a*a)*(c*c) ≤ b*b*(dx*dx + dy*dy) := by
  simp [distLt, not_lt]

theorem distGt_true_iff {dx dy a b c : ℤ} :
    distGt dx dy a b c = true ↔ 4*(a*a)*(c*c) < b*b*(dx*dx + dy*dy) := by
  simp [distGt]

/-! ### Hole placement facts -/

theorem tryHole_spec (cols rows : ℕ) (cs ox oy sx sy gx gy : ℤ) (holes : List Hole) :
    ∀ (att seed : ℕ) (h : Hole),
      (tryHole cols rows cs ox oy sx sy gx gy holes att seed).1 = some h →
      9*(cs*cs) ≤ sep2 h.x h.y sx sy ∧
      ∀ h' ∈ holes, 4*(cs*cs) ≤ sep2 h.x h.y h'.x h'.y := by
  intro att
  induction att with
  | zero => intro seed h heq; exact absurd heq (by simp [tryHole])
  | succ att ih =>
    intro seed h heq
    rw [tryHole] at heq
    split at heq
    · exact ih _ h heq
    · split at heq
      · exact ih _ h heq
      · rename_i h1 h2
        simp only [Option.some_inj] at heq
        subst heq
        simp only [Bool.or_eq_true, not_or, Bool.not_eq_true] at h1
        constructor
        · have := distLt_false_iff.mp h1.1
          unfold sep2
          dsimp only
          omega
        · intro h' hmem
          rw [List.any_eq_true] at h2
          push_neg at h2
          have hf : distLt (ox + 2*(↑(drawNat seed cols).1)*cs + cs - h'.x)
              (oy + 2*(↑(drawNat (drawNat seed cols).2 rows).1)*cs + cs - h'.y) 1 1 cs = false := by
            have := h2 h' hmem
            simpa using this
          have := distLt_false_iff.mp hf
          unfold sep2
          dsimp only
          omega

theorem generateHoles_facts (cols rows : ℕ) (cs ox oy sx sy gx gy : ℤ)
    (numHoles seed : ℕ) :
    holeFacts cs sx sy (generateHoles cols rows cs ox oy sx sy gx gy numHoles seed).1 := by
  unfold generateHoles
  have aux : ∀ (l : List ℕ) (p : List Hole × ℕ), holeFacts cs sx sy p.1 →
      holeFacts cs sx sy ((l.foldl (fun p _ =>
        let r := tryHole cols rows cs ox oy sx sy gx gy p.1 30 p.2
        match r.1 with
        | some h => (p.1 ++ [h], r.2)
        | none => (p.1, r.2)) p).1) := by
    intro l
    induction l with
    | nil => intro p hp; exact hp
    | cons n t ih =>
      intro p hp
      simp only [List.foldl_cons]
      apply ih
      dsimp only
      rcases hr : (tryHole cols rows cs ox oy sx sy gx gy p.1 30 p.2).1 with _ | h
      · exact hp
      · show holeFacts cs sx sy (p.1 ++ [h])
        obtain ⟨hstart, hpair⟩ := tryHole_spec cols rows cs ox oy sx sy gx gy p.1 30 p.2 h hr
        constructor
        · intro h' hmem
          rcases List.mem_append.mp hmem with hold | hnew
          · exact hp.1 h' hold
          · rw [List.mem_singleton.mp hnew]
            exact hstart
        · rw [List.pairwise_append]
          refine ⟨hp.2, List.pairwise_singleton _ h, ?_⟩
          intro a ha b hb
          rw [List.mem_singleton.mp hb, sep2_comm]
          exact hpair a ha
  exact aux _ ([], seed) ⟨by simp, by simp⟩

/-! ### Powerup placement facts -/

theorem tryPowerup_spec (cols rows : ℕ) (cs ox oy sx sy gx gy : ℤ) (holes : List Hole)
    (types : List String) (pups : List Powerup)
    (hcs : 50 ≤ cs) (hoy : (oy + cs) % 2 = 0)
    (hpups : ∀ p ∈ pups, isRCenter ox cs p.x ∧ isRCenter oy cs p.y) :
    ∀ (att seed : ℕ) (pu : Powerup),
      (tryPowerup cols rows cs ox oy sx sy gx gy holes types pups att seed).1 = some pu →
      isRCenter ox cs pu.x ∧ isRCenter oy cs pu.y ∧
      9*(cs*cs) ≤ sep2 pu.x pu.y sx sy ∧
      ∀ p ∈ pups, 9*(cs*cs) ≤ sep2 pu.x pu.y p.x p.y := by
  intro att
  induction att with
  | zero => intro seed pu heq; exact absurd heq (by simp [tryPowerup])
  | succ att ih =>
    intro seed pu heq
    rw [tryPowerup] at heq
    split at heq
    · exact ih _ pu heq
    · split at heq
      · exact ih _ pu heq
      · split at heq
        · exact ih _ pu heq
        · rename_i h1 hh hp
          simp only [Option.some_inj] at heq
          subst heq
          set a := (drawNat seed cols).1 with ha
          set b := (drawNat (drawNat seed cols).2 rows).1 with hb
          set δ := (ox + cs) % 2 with hδ
          have hδ0 : 0 ≤ δ := by omega
          have hδ1 : δ ≤ 1 := by omega
          simp only [Bool.or_eq_true, not_or, Bool.not_eq_true] at h1
          have hpre := distLt_false_iff.mp h1.1
          have hym : (oy + 2*(b:ℤ)*cs + cs) % 2 = 0 := by
            have := centerC_mod oy cs b
            unfold centerC at this
            omega
          have hry : roundD (oy + 2*(b:ℤ)*cs + cs) = oy + 2*(b:ℤ)*cs + cs := roundD_even hym
          have hrx : roundD (ox + 2*(a:ℤ)*cs + cs) = (ox + 2*(a:ℤ)*cs + cs) + δ := by
            have := roundD_centerC ox cs a
            unfold centerC at this
            rw [this, hδ]
          refine ⟨⟨a, rfl⟩, ⟨b, rfl⟩, ?_, ?_⟩
          · have hpre2 : (4*cs)*(4*cs) ≤
                ((ox + 2*(a:ℤ)*cs + cs) - sx)*((ox + 2*(a:ℤ)*cs + cs) - sx) +
                ((oy + 2*(b:ℤ)*cs + cs) - sy)*((oy + 2*(b:ℤ)*cs + cs) - sy) := by
              have h16 : (4*cs)*(4*cs) = 4*(2*2)*(cs*cs) := by ring
              rw [h16]
              linarith [hpre]
            have hstep := c9_shift_sq (by omega) hδ0 hδ1 hpre2
            have hfinal := c9_ge9_of_shift hcs hstep
            show 9*(cs*cs) ≤ sep2 (roundD (ox + 2*(a:ℤ)*cs + cs)) (roundD (oy + 2*(b:ℤ)*cs + cs)) sx sy
            unfold sep2
            rw [hrx, hry]
            have hre : (ox + 2*(a:ℤ)*cs + cs) + δ - sx = ((ox + 2*(a:ℤ)*cs + cs) - sx) + δ := by
              ring
            rw [hre]
            exact hfinal
          · intro p hmem
            obtain ⟨⟨a', hax⟩, ⟨b', hay⟩⟩ := hpups p hmem
            rw [List.any_eq_true] at hp
            push_neg at hp
            have hf : distLt ((ox + 2*(a:ℤ)*cs + cs) - p.x) ((oy + 2*(b:ℤ)*cs + cs) - p.y) 3 2 cs = false := by
              simpa using hp p hmem
            have hchk := distLt_false_iff.mp hf
            have hdx : (ox + 2*(a:ℤ)*cs + cs) - p.x = 2*((a:ℤ) - a')*cs - δ := by
              rw [hax, roundD_centerC, hδ]
              unfold centerC
              ring
            have hdy : (oy + 2*(b:ℤ)*cs + cs) - p.y = 2*((b:ℤ) - b')*cs := by
              rw [hay, roundD_centerC, hoy]
              unfold centerC
              ring
            rw [hdx, hdy] at hchk
            have hchk2 : 9*(cs*cs) ≤
                (2*((a:ℤ)-(a':ℤ))*cs - δ)*(2*((a:ℤ)-(a':ℤ))*cs - δ) +
                (2*((b:ℤ)-(b':ℤ))*cs)*(2*((b:ℤ)-(b':ℤ))*cs) := by
              omega
            have hTlt : 8*(cs*cs) + 4*cs + 1 < 9*(cs*cs) := by nlinarith
            have hTle : 9*(cs*cs) ≤ 16*(cs*cs) := by nlinarith
            have hfin := c9_pair_of_check hcs hδ0 hδ1 hTlt hTle hchk2
            show 9*(cs*cs) ≤ sep2 (roundD (ox + 2*(a:ℤ)*cs + cs)) (roundD (oy + 2*(b:ℤ)*cs + cs)) p.x p.y
            have hfx : roundD (ox + 2*(a:ℤ)*cs + cs) - p.x = 2*((a:ℤ) - a')*cs := by
              rw [hax]
              have := rcenter_sub ox cs a a'
              unfold centerC at this
              exact this
            have hfy : roundD (oy + 2*(b:ℤ)*cs + cs) - p.y = 2*((b:ℤ) - b')*cs := by
              rw [hay]
              have := rcenter_sub oy cs b b'
              unfold centerC at this
              exact this
            unfold sep2
            rw [hfx, hfy]
            exact hfin

theorem generatePowerups_facts (levelNum cols rows : ℕ) (cs ox oy sx sy gx gy : ℤ)
    (holes : List Hole) (seed : ℕ)
    (hcs : 50 ≤ cs) (hoy : (oy + cs) % 2 = 0) :
    pupFacts ox oy cs sx sy
      (generatePowerups levelNum cols rows cs ox oy sx sy gx gy holes seed).1 := by
  unfold generatePowerups
  split
  · exact ⟨by simp, by simp⟩
  · have aux : ∀ (l : List ℕ) (p : List Powerup × ℕ), pupFacts ox oy cs sx sy p.1 →
        pupFacts ox oy cs sx sy ((l.foldl (fun p _ =>
          let r := tryPowerup cols rows cs ox oy sx sy gx gy holes
            (availableTypes levelNum) p.1 20 p.2
          match r.1 with
          | some pu => (p.1 ++ [pu], r.2)
          | none => (p.1, r.2)) p).1) := by
      intro l
      induction l with
      | nil => intro p hp; exact hp
      | cons n t ih =>
        intro p hp
        simp only [List.foldl_cons]
        apply ih
        dsimp only
        rcases hr : (tryPowerup cols rows cs ox oy sx sy gx gy holes
            (availableTypes levelNum) p.1 20 p.2).1 with _ | pu
        · exact hp
        · show pupFacts ox oy cs sx sy (p.1 ++ [pu])
          have hmem : ∀ q ∈ p.1, isRCenter ox cs q.x ∧ isRCenter oy cs q.y :=
            fun q hq => ⟨(hp.1 q hq).1, (hp.1 q hq).2.1⟩
          obtain ⟨hcx, hcy, hstart, hpair⟩ := tryPowerup_spec cols rows cs ox oy sx sy gx gy
            holes (availableTypes levelNum) p.1 hcs hoy hmem 20 p.2 pu hr
          constructor
          · intro q hq
            rcases List.mem_append.mp hq with hold | hnew
            · exact hp.1 q hold
            · rw [List.mem_singleton.mp hnew]
              exact ⟨hcx, hcy, hstart⟩
          · rw [List.pairwise_append]
            refine ⟨hp.2, List.pairwise_singleton _ pu, ?_⟩
            intro q hq r hrr
            rw [List.mem_singleton.mp hrr, sep2_comm]
            exact hpair q hq
    exact aux _ ([], seed) ⟨by simp, by simp⟩

/-! ### Bounce-pad placement facts -/

theorem tryBouncePad_spec (cols rows : ℕ) (cs ox oy sx sy gx gy : ℤ) (holes : List Hole)
    (pads : List BouncePad)
    (hcs : 50 ≤ cs) (hoy : (oy + cs) % 2 = 0)
    (hsx : isCenter ox cs sx) (hsy : isCenter oy cs sy)
    (hpads : ∀ p ∈ pads, isRCenter ox cs p.x ∧ isRCenter oy cs p.y) :
    ∀ (att seed : ℕ) (pd : BouncePad),
      (tryBouncePad cols rows cs ox oy sx sy gx gy holes pads att seed).1 = some pd →
      isRCenter ox cs pd.x ∧ isRCenter oy cs pd.y ∧
      9*(cs*cs) ≤ sep2 pd.x pd.y sx sy ∧
      ∀ p ∈ pads, 16*(cs*cs) ≤ sep2 pd.x pd.y p.x p.y := by
  intro att
  induction att with
  | zero => intro seed pd heq; exact absurd heq (by simp [tryBouncePad])
  | succ att ih =>
    intro seed pd heq
    rw [tryBouncePad] at heq
    split at heq
    · exact ih _ pd heq
    · split at heq
      · exact ih _ pd heq
      · split at heq
        · exact ih _ pd heq
        · rename_i h1 hh hp
          simp only [Option.some_inj] at heq
          subst heq
          set a := (drawNat seed cols).1 with ha
          set b := (drawNat (drawNat seed cols).2 rows).1 with hb
          set δ := (ox + cs) % 2 with hδ
          have hδ0 : 0 ≤ δ := by omega
          have hδ1 : δ ≤ 1 := by omega
          obtain ⟨i0, hsx0⟩ := hsx
          obtain ⟨j0, hsy0⟩ := hsy
          simp only [Bool.or_eq_true, not_or, Bool.not_eq_true] at h1
          have hpre := distLt_false_iff.mp h1.1
          have hym : (oy + 2*(b:ℤ)*cs + cs) % 2 = 0 := by
            have := centerC_mod oy cs b
            unfold centerC at this
            omega
          have hry : roundD (oy + 2*(b:ℤ)*cs + cs) = oy + 2*(b:ℤ)*cs + cs := roundD_even hym
          have hrx : roundD (ox + 2*(a:ℤ)*cs + cs) = (ox + 2*(a:ℤ)*cs + cs) + δ := by
            have := roundD_centerC ox cs a
            unfold centerC at this
            rw [this, hδ]
          have hdsx : (ox + 2*(a:ℤ)*cs + cs) - sx = 2*((a:ℤ) - i0)*cs := by
            rw [hsx0]
            unfold centerC
            ring
          have hdsy : (oy + 2*(b:ℤ)*cs + cs) - sy = 2*((b:ℤ) - j0)*cs := by
            rw [hsy0]
            unfold centerC
            ring
          refine ⟨⟨a, rfl⟩, ⟨b, rfl⟩, ?_, ?_⟩
          · rw [hdsx, hdsy] at hpre
            have hchk2 : 9*(cs*cs) ≤
                (2*((a:ℤ)-(i0:ℤ))*cs)*(2*((a:ℤ)-(i0:ℤ))*cs) +
                (2*((b:ℤ)-(j0:ℤ))*cs)*(2*((b:ℤ)-(j0:ℤ))*cs) := by
              omega
            have hfin := c9_pad_start hcs hδ0 hδ1 hchk2
            show 9*(cs*cs) ≤ sep2 (roundD (ox + 2*(a:ℤ)*cs + cs)) (roundD (oy + 2*(b:ℤ)*cs + cs)) sx sy
            unfold sep2
            rw [hrx, hry]
            have hre : (ox + 2*(a:ℤ)*cs + cs) + δ - sx = 2*((a:ℤ)-(i0:ℤ))*cs + δ := by
              rw [hsx0]
              unfold centerC
              ring
            rw [hre, hdsy]
            exact hfin
          · intro p hmem
            obtain ⟨⟨a', hax⟩, ⟨b', hay⟩⟩ := hpads p hmem
            rw [List.any_eq_true] at hp
            push_neg at hp
            have hf : distLt ((ox + 2*(a:ℤ)*cs + cs) - p.x) ((oy + 2*(b:ℤ)*cs + cs) - p.y) 2 1 cs = false := by
              simpa using hp p hmem
            have hchk := distLt_false_iff.mp hf
            have hdx : (ox + 2*(a:ℤ)*cs + cs) - p.x = 2*((a:ℤ) - a')*cs - δ := by
              rw [hax, roundD_centerC, hδ]
              unfold centerC
              ring
            have hdy : (oy + 2*(b:ℤ)*cs + cs) - p.y = 2*((b:ℤ) - b')*cs := by
              rw [hay, roundD_centerC, hoy]
              unfold centerC
              ring
            rw [hdx, hdy] at hchk
            have hchk2 : 16*(cs*cs) ≤
                (2*((a:ℤ)-(a':ℤ))*cs - δ)*(2*((a:ℤ)-(a':ℤ))*cs - δ) +
                (2*((b:ℤ)-(b':ℤ))*cs)*(2*((b:ℤ)-(b':ℤ))*cs) := by
              omega
            have hTlt : 8*(cs*cs) + 4*cs + 1 < 16*(cs*cs) := by nlinarith
            have hfin := c9_pair_of_check hcs hδ0 hδ1 hTlt (le_refl _) hchk2
            show 16*(cs*cs) ≤ sep2 (roundD (ox + 2*(a:ℤ)*cs + cs)) (roundD (oy + 2*(b:ℤ)*cs + cs)) p.x p.y
            have hfx : roundD (ox + 2*(a:ℤ)*cs + cs) - p.x = 2*((a:ℤ) - a')*cs := by
              rw [hax]
              have := rcenter_sub ox cs a a'
              unfold centerC at this
              exact this
            have hfy : roundD (oy + 2*(b:ℤ)*cs + cs) - p.y = 2*((b:ℤ) - b')*cs := by
              rw [hay]
              have := rcenter_sub oy cs b b'
              unfold centerC at this
              exact this
            unfold sep2
            rw [hfx, hfy]
            exact hfin

theorem generateBouncePads_facts (levelNum cols rows : ℕ) (cs ox oy sx sy gx gy : ℤ)
    (holes : List Hole) (seed : ℕ)
    (hcs : 50 ≤ cs) (hoy : (oy + cs) % 2 = 0)
    (hsx : isCenter ox cs sx) (hsy : isCenter oy cs sy) :
    padFacts ox oy cs sx sy
      (generateBouncePads levelNum cols rows cs ox oy sx sy gx gy holes seed).1 := by
  unfold generateBouncePads
  split
  · exact ⟨by simp, by simp⟩
  · have aux : ∀ (l : List ℕ) (p : List BouncePad × ℕ), padFacts ox oy cs sx sy p.1 →
        padFacts ox oy cs sx sy ((l.foldl (fun p _ =>
          let r := tryBouncePad cols rows cs ox oy sx sy gx gy holes p.1 20 p.2
          match r.1 with
          | some pd => (p.1 ++ [pd], r.2)
          | none => (p.1, r.2)) p).1) := by
      intro l
      induction l with
      | nil => intro p hp; exact hp
      | cons n t ih =>
        intro p hp
        simp only [List.foldl_cons]
        apply ih
        dsimp only
        rcases hr : (tryBouncePad cols rows cs ox oy sx sy gx gy holes p.1 20 p.2).1 with _ | pd
        · exact hp
        · show padFacts ox oy cs sx sy (p.1 ++ [pd])
          have hmem : ∀ q ∈ p.1, isRCenter ox cs q.x ∧ isRCenter oy cs q.y :=
            fun q hq => ⟨(hp.1 q hq).1, (hp.1 q hq).2.1⟩
          obtain ⟨hcx, hcy, hstart, hpair⟩ := tryBouncePad_spec cols rows cs ox oy sx sy gx gy
            holes p.1 hcs hoy hsx hsy hmem 20 p.2 pd hr
          constructor
          · intro q hq
            rcases List.mem_append.mp hq with hold | hnew
            · exact hp.1 q hold
            · rw [List.mem_singleton.mp hnew]
              exact ⟨hcx, hcy, hstart⟩
          · rw [List.pairwise_append]
            refine ⟨hp.2, List.pairwise_singleton _ pd, ?_⟩
            intro q hq r hrr
            rw [List.mem_singleton.mp hrr, sep2_comm]
            exact hpair q hq
    exact aux _ ([], seed) ⟨by simp, by simp⟩

/-! ### List plumbing: `listSwap` and `fisherYates` are permutations and
the dead-end cell list has no duplicates -/

theorem set_get?_self {α : Type} : ∀ (l : List α) (i : ℕ) (a : α),
    l.get? i = some a → l.set i a = l := by
  intro l
  induction l with
  | nil => intro i a h; simp at h
  | cons x t ih =>
    intro i a h
    cases i with
    | zero =>
      simp only [List.get?_cons_zero, Option.some_inj] at h
      simp [h]
    | succ i =>
      simp only [List.get?_cons_succ] at h
      simp only [List.set_cons_succ]
      rw [ih i a h]

theorem cons_get_set_perm {α : Type} (l : List α) : ∀ (m : ℕ) (hm : m < l.length) (x : α),
    (l[m] :: l.set m x).Perm (x :: l) := by
  induction l with
  | nil => intro m hm; simp at hm
  | cons a t ih =>
    intro m hm x
    cases m with
    | zero => simpa using List.Perm.swap x a t
    | succ m =>
      have hm' : m < t.length := by simpa using hm
      simp only [List.getElem_cons_succ, List.set_cons_succ]
      exact ((List.Perm.swap a (t[m]) (t.set m x)).trans
        ((ih m hm' x).cons a)).trans (List.Perm.swap x a t)

theorem get?_bound {α : Type} {l : List α} {i : ℕ} {a : α}
    (h : l.get? i = some a) : i < l.length := by
  by_contra hc
  push_neg at hc
  rw [List.get?_eq_none.mpr hc] at h
  cases h

theorem get?_val {α : Type} {l : List α} {i : ℕ} {a : α}
    (h : l.get? i = some a) (hi : i < l.length) : l[i] = a := by
  rw [List.get?_eq_getElem?] at h
  rw [List.getElem?_eq_getElem hi] at h
  injection h

theorem listSwap_perm {α : Type} (l : List α) (i j : ℕ) : (listSwap l i j).Perm l := by
  unfold listSwap
  rcases hi : l.get? i with _ | a <;> rcases hj : l.get? j with _ | b
  · exact List.Perm.refl l
  · exact List.Perm.refl l
  · exact List.Perm.refl l
  · show ((l.set i b).set j a).Perm l
    by_cases hij : i = j
    · subst hij
      have hab : a = b := by rw [hi] at hj; injection hj
      subst hab
      rw [List.set_set, set_get?_self l i a hi]
    · have hil : i < l.length := get?_bound hi
      have hjl : j < l.length := get?_bound hj
      have hjl' : j < (l.set i b).length := by simpa using hjl
      have h1 : ((l.set i b)[j] :: (l.set i b).set j a).Perm (a :: l.set i b) :=
        cons_get_set_perm (l.set i b) j hjl' a
      have h2 : (l[i] :: l.set i b).Perm (b :: l) := cons_get_set_perm l i hil b
      have hgj : (l.set i b)[j] = l[j] := List.getElem_set_ne (by omega) _
      rw [hgj, get?_val hj hjl] at h1
      rw [get?_val hi hil] at h2
      exact List.Perm.cons_inv (h1.trans h2)

theorem fisherYates_perm {α : Type} (l : List α) (seed : ℕ) :
    (fisherYates l seed).1.Perm l := by
  unfold fisherYates
  generalize ((List.range (l.length - 1)).reverse.map (· + 1)) = idxs
  have aux : ∀ (idxs : List ℕ) (p : List α × ℕ),
      ((idxs.foldl (fun p i =>
        let q := drawNat p.2 (i + 1)
        (listSwap p.1 i q.1, q.2)) p).1).Perm p.1 := by
    intro idxs
    induction idxs with
    | nil => intro p; exact List.Perm.refl _
    | cons i t ih =>
      intro p
      simp only [List.foldl_cons]
      exact (ih _).trans (listSwap_perm p.1 i _)
  exact aux idxs (l, seed)

theorem deadEndCells_nodup (g : Grid) (cols rows : ℕ) :
    (deadEndCells g cols rows).Nodup := by
  unfold deadEndCells
  rw [List.nodup_flatMap]
  constructor
  · intro row _
    rw [List.nodup_flatMap]
    constructor
    · intro col _
      split <;> simp
    · have hr : (List.range cols).Pairwise (· ≠ ·) := List.nodup_range cols
      refine hr.imp ?_
      intro a b hab x hxa hxb
      dsimp only at hxa hxb
      have ha : x = (row, a) := by
        by_cases h : 3 ≤ wallCount (getCell g row a)
        · rw [if_pos h] at hxa; simpa using hxa
        · rw [if_neg h] at hxa; simp at hxa
      have hb : x = (row, b) := by
        by_cases h : 3 ≤ wallCount (getCell g row b)
        · rw [if_pos h] at hxb; simpa using hxb
        · rw [if_neg h] at hxb; simp at hxb
      rw [ha] at hb
      exact hab (by injection hb)
  · have hr : (List.range rows).Pairwise (· ≠ ·) := List.nodup_range rows
    refine hr.imp ?_
    intro a b hab x hxa hxb
    dsimp only at hxa hxb
    have hfst : ∀ row, ∀ y ∈ (List.range cols).flatMap (fun col =>
        if 3 ≤ wallCount (getCell g row col) then [(row, col)] else []),
        (y : ℕ × ℕ).1 = row := by
      intro row y hy
      simp only [List.mem_flatMap, List.mem_range] at hy
      obtain ⟨col, _, hmem⟩ := hy
      by_cases h : 3 ≤ wallCount (getCell g row col)
      · rw [if_pos h] at hmem
        simp only [List.mem_singleton] at hmem
        rw [hmem]
      · rw [if_neg h] at hmem; simp at hmem
    have h1 := hfst a x hxa
    have h2 := hfst b x hxb
    exact hab (h1 ▸ h2)

/-! ### Coin placement facts -/

theorem deadEndCoins_facts (numCoins : ℕ) (cs ox oy sx sy gx gy : ℤ)
    (de : List (ℕ × ℕ)) (hnd : de.Nodup)
    (hcs : 50 ≤ cs) (hoy : (oy + cs) % 2 = 0) :
    coinFacts ox oy cs sx sy (deadEndCoins numCoins cs ox oy sx sy gx gy de) := by
  unfold deadEndCoins
  have hnd' : (de.take (min numCoins de.length)).Nodup :=
    (List.take_sublist _ _).nodup hnd
  have aux : ∀ (l : List (ℕ × ℕ)) (acc : List Pt), l.Nodup →
      coinFacts ox oy cs sx sy acc →
      (∀ p ∈ acc, ∃ cell : ℕ × ℕ, cell ∉ l ∧
        p.x = roundD (centerC ox cs cell.2) ∧ p.y = roundD (centerC oy cs cell.1)) →
      coinFacts ox oy cs sx sy (l.foldl (fun acc cell =>
        let x := ox + 2*(cell.2 : ℤ)*cs + cs
        let y := oy + 2*(cell.1 : ℤ)*cs + cs
        if distGt (x - sx) (y - sy) 1 1 cs && distGt (x - gx) (y - gy) 1 1 cs then
          acc ++ [Pt.mk (roundD x) (roundD y)]
        else acc) acc) := by
    intro l
    induction l with
    | nil => intro acc _ hcf _; exact hcf
    | cons z t ih =>
      intro acc hndl hcf hcells
      simp only [List.foldl_cons]
      have hndt : t.Nodup := (List.nodup_cons.mp hndl).2
      have hz : z ∉ t := (List.nodup_cons.mp hndl).1
      set δ := (ox + cs) % 2 with hδ
      have hδ0 : 0 ≤ δ := by omega
      have hδ1 : δ ≤ 1 := by omega
      have hym : (oy + 2*(z.1:ℤ)*cs + cs) % 2 = 0 := by
        have := centerC_mod oy cs z.1
        unfold centerC at this
        omega
      have hry : roundD (oy + 2*(z.1:ℤ)*cs + cs) = oy + 2*(z.1:ℤ)*cs + cs := roundD_even hym
      have hrx : roundD (ox + 2*(z.2:ℤ)*cs + cs) = (ox + 2*(z.2:ℤ)*cs + cs) + δ := by
        have := roundD_centerC ox cs z.2
        unfold centerC at this
        rw [this, hδ]
      split
      · rename_i hacc
        apply ih _ hndt ?_ ?_
        · simp only [Bool.and_eq_true] at hacc
          have hstart := distGt_true_iff.mp hacc.1
          constructor
          · intro p hp
            rcases List.mem_append.mp hp with hold | hnew
            · exact hcf.1 p hold
            · rw [List.mem_singleton.mp hnew]
              refine ⟨⟨z.2, rfl⟩, ⟨z.1, rfl⟩, ?_⟩
              have hpre2 : (2*cs)*(2*cs) ≤
                  ((ox + 2*(z.2:ℤ)*cs + cs) - sx)*((ox + 2*(z.2:ℤ)*cs + cs) - sx) +
                  ((oy + 2*(z.1:ℤ)*cs + cs) - sy)*((oy + 2*(z.1:ℤ)*cs + cs) - sy) := by
                have h4 : (2*cs)*(2*cs) = 4*(1*1)*(cs*cs) := by ring
                rw [h4]
                linarith [hstart]
              have hstep := c9_shift_sq (by omega) hδ0 hδ1 hpre2
              show (2*cs-1)*(2*cs-1) ≤
                sep2 (roundD (ox + 2*(z.2:ℤ)*cs + cs)) (roundD (oy + 2*(z.1:ℤ)*cs + cs)) sx sy
              unfold sep2
              rw [hrx, hry]
              have hre : (ox + 2*(z.2:ℤ)*cs + cs) + δ - sx =
                  ((ox + 2*(z.2:ℤ)*cs + cs) - sx) + δ := by ring
              rw [hre]
              exact hstep
          · rw [List.pairwise_append]
            refine ⟨hcf.2, List.pairwise_singleton _ _, ?_⟩
            intro p hp q hq
            rw [List.mem_singleton.mp hq]
            obtain ⟨w, hwl, hwx, hwy⟩ := hcells p hp
            have hwz : w ≠ z := fun he => hwl (he ▸ List.mem_cons_self z t)
            show 64*(cs*cs) ≤ 25 * sep2 p.x p.y
              (roundD (ox + 2*(z.2:ℤ)*cs + cs)) (roundD (oy + 2*(z.1:ℤ)*cs + cs))
            have hfx : p.x - roundD (ox + 2*(z.2:ℤ)*cs + cs) = 2*((w.2:ℤ) - z.2)*cs := by
              rw [hwx]
              have := rcenter_sub ox cs w.2 z.2
              unfold centerC at this
              exact this
            have hfy : p.y - roundD (oy + 2*(z.1:ℤ)*cs + cs) = 2*((w.1:ℤ) - z.1)*cs := by
              rw [hwy]
              have := rcenter_sub oy cs w.1 z.1
              unfold centerC at this
              exact this
            have hIJ : ¬((w.2:ℤ) - z.2 = 0 ∧ (w.1:ℤ) - z.1 = 0) := by
              rintro ⟨hx2, hy2⟩
              apply hwz
              have e2 : w.2 = z.2 := by omega
              have e1 : w.1 = z.1 := by omega
              exact Prod.ext e1 e2
            unfold sep2
            rw [hfx, hfy]
            exact c9_nonzero_pair hIJ
        · intro p hp
          rcases List.mem_append.mp hp with hold | hnew
          · obtain ⟨w, hwl, hwx, hwy⟩ := hcells p hold
            exact ⟨w, fun hwt => hwl (List.mem_cons_of_mem z hwt), hwx, hwy⟩
          · rw [List.mem_singleton.mp hnew]
            exact ⟨z, hz, rfl, rfl⟩
      · apply ih _ hndt hcf ?_
        intro p hp
        obtain ⟨w, hwl, hwx, hwy⟩ := hcells p hp
        exact ⟨w, fun hwt => hwl (List.mem_cons_of_mem z hwt), hwx, hwy⟩
  exact aux _ [] hnd' ⟨by simp, by simp⟩ (by simp)

theorem fillCoins_facts (cols rows : ℕ) (cs ox oy sx sy gx gy : ℤ) (numCoins : ℕ)
    (hcs : 50 ≤ cs) (hoy : (oy + cs) % 2 = 0) :
    ∀ (fuel : ℕ) (coins : List Pt) (seed : ℕ),
      coinFacts ox oy cs sx sy coins →
      coinFacts ox oy cs sx sy
        (fillCoins cols rows cs ox oy sx sy gx gy numCoins fuel coins seed).1 := by
  intro fuel
  induction fuel with
  | zero => intro coins seed h; exact h
  | succ fuel ih =>
    intro coins seed h
    rw [fillCoins]
    split
    · exact h
    · dsimp only
      split
      · exact ih _ _ h
      · split
        · exact ih _ _ h
        · rename_i hlen h1 h2
          apply ih
          set a := (drawNat seed cols).1 with ha
          set b := (drawNat (drawNat seed cols).2 rows).1 with hb
          set δ := (ox + cs) % 2 with hδ
          have hδ0 : 0 ≤ δ := by omega
          have hδ1 : δ ≤ 1 := by omega
          simp only [Bool.or_eq_true, not_or, Bool.not_eq_true] at h1
          have hpre := distLt_false_iff.mp h1.1
          have hym : (oy + 2*(b:ℤ)*cs + cs) % 2 = 0 := by
            have := centerC_mod oy cs b
            unfold centerC at this
            omega
          have hry : roundD (oy + 2*(b:ℤ)*cs + cs) = oy + 2*(b:ℤ)*cs + cs := roundD_even hym
          have hrx : roundD (ox + 2*(a:ℤ)*cs + cs) = (ox + 2*(a:ℤ)*cs + cs) + δ := by
            have := roundD_centerC ox cs a
            unfold centerC at this
            rw [this, hδ]
          constructor
          · intro p hp
            rcases List.mem_append.mp hp with hold | hnew
            · exact h.1 p hold
            · rw [List.mem_singleton.mp hnew]
              refine ⟨⟨a, rfl⟩, ⟨b, rfl⟩, ?_⟩
              have hpre2 : (2*cs)*(2*cs) ≤
                  ((ox + 2*(a:ℤ)*cs + cs) - sx)*((ox + 2*(a:ℤ)*cs + cs) - sx) +
                  ((oy + 2*(b:ℤ)*cs + cs) - sy)*((oy + 2*(b:ℤ)*cs + cs) - sy) := by
                have h4 : (2*cs)*(2*cs) = 4*(1*1)*(cs*cs) := by ring
                rw [h4]
                linarith [hpre]
              have hstep := c9_shift_sq (by omega) hδ0 hδ1 hpre2
              show (2*cs-1)*(2*cs-1) ≤
                sep2 (roundD (ox + 2*(a:ℤ)*cs + cs)) (roundD (oy + 2*(b:ℤ)*cs + cs)) sx sy
              unfold sep2
              rw [hrx, hry]
              have hre : (ox + 2*(a:ℤ)*cs + cs) + δ - sx =
                  ((ox + 2*(a:ℤ)*cs + cs) - sx) + δ := by ring
              rw [hre]
              exact hstep
          · rw [List.pairwise_append]
            refine ⟨h.2, List.pairwise_singleton _ _, ?_⟩
            intro p hp q hq
            rw [List.mem_singleton.mp hq]
            obtain ⟨⟨a', hax⟩, ⟨b', hay⟩, _⟩ := h.1 p hp
            rw [List.any_eq_true] at h2
            push_neg at h2
            have hf : distLt ((ox + 2*(a:ℤ)*cs + cs) - p.x)
                ((oy + 2*(b:ℤ)*cs + cs) - p.y) 4 5 cs = false := by
              simpa using h2 p hp
            have hchk := distLt_false_iff.mp hf
            have hdx : (ox + 2*(a:ℤ)*cs + cs) - p.x = 2*((a:ℤ) - a')*cs - δ := by
              rw [hax, roundD_centerC, hδ]
              unfold centerC
              ring
            have hdy : (oy + 2*(b:ℤ)*cs + cs) - p.y = 2*((b:ℤ) - b')*cs := by
              rw [hay, roundD_centerC, hoy]
              unfold centerC
              ring
            rw [hdx, hdy] at hchk
            have hchk2 : 64*(cs*cs) ≤
                25*((2*((a:ℤ)-(a':ℤ))*cs - δ)*(2*((a:ℤ)-(a':ℤ))*cs - δ) +
                (2*((b:ℤ)-(b':ℤ))*cs)*(2*((b:ℤ)-(b':ℤ))*cs)) := by
              omega
            have hfin := c9_coin_pair hcs hδ0 hδ1 hchk2
            show 64*(cs*cs) ≤ 25 * sep2 p.x p.y
              (roundD (ox + 2*(a:ℤ)*cs + cs)) (roundD (oy + 2*(b:ℤ)*cs + cs))
            have hfx : p.x - roundD (ox + 2*(a:ℤ)*cs + cs) = 2*((a':ℤ) - a)*cs := by
              rw [hax]
              have := rcenter_sub ox cs a' a
              unfold centerC at this
              exact this
            have hfy : p.y - roundD (oy + 2*(b:ℤ)*cs + cs) = 2*((b':ℤ) - b)*cs := by
              rw [hay]
              have := rcenter_sub oy cs b' b
              unfold centerC at this
              exact this
            unfold sep2
            rw [hfx, hfy]
            have hsym : (2*((a':ℤ)-(a:ℤ))*cs)*(2*((a':ℤ)-(a:ℤ))*cs) =
                (2*((a:ℤ)-(a':ℤ))*cs)*(2*((a:ℤ)-(a':ℤ))*cs) := by ring
            have hsym2 : (2*((b':ℤ)-(b:ℤ))*cs)*(2*((b':ℤ)-(b:ℤ))*cs) =
                (2*((b:ℤ)-(b':ℤ))*cs)*(2*((b:ℤ)-(b':ℤ))*cs) := by ring
            rw [hsym, hsym2]
            exact hfin

theorem generateCoins_facts (levelNum cols rows : ℕ) (cs ox oy sx sy gx gy : ℤ)
    (g : Grid) (seed : ℕ) (hcs : 50 ≤ cs) (hoy : (oy + cs) % 2 = 0) :
    coinFacts ox oy cs sx sy
      (generateCoins levelNum cols rows cs ox oy sx sy gx gy g seed).1 := by
  unfold generateCoins
  apply fillCoins_facts cols rows cs ox oy sx sy gx gy _ hcs hoy
  apply deadEndCoins_facts
  · exact ((fisherYates_perm (deadEndCells g cols rows) seed).nodup_iff).mpr
      (deadEndCells_nodup g cols rows)
  · exact hcs
  · exact hoy

/-! ### Extra-life placement facts -/

theorem getD_mem_of_pos {α : Type} (l : List α) (d : α) (s : ℕ) (h : 0 < l.length) :
    l.getD (drawNat s l.length).1 d ∈ l := by
  have hidx := drawNat_lt s l.length h
  rw [List.getD_eq_getElem l d hidx]
  exact List.getElem_mem hidx

theorem mem_lifeCands {cols rows : ℕ} {cs ox oy sx sy gx gy : ℤ} {g : Grid}
    {coins : List Pt} {holes : List Hole} {p : ℤ × ℤ}
    (hp : p ∈ (List.range rows).flatMap (fun row =>
      (List.range cols).flatMap (fun col =>
        if 3 ≤ wallCount (getCell g row col) then
          let x := ox + 2*(col : ℤ)*cs + cs
          let y := oy + 2*(row : ℤ)*cs + cs
          if distLt (x - sx) (y - sy) 2 1 cs || distLt (x - gx) (y - gy) 2 1 cs then []
          else if coins.any (fun c => distLt (x - c.x) (y - c.y) 1 2 cs) then []
          else if holes.any (fun h => distLt (x - h.x) (y - h.y) 1 2 cs) then []
          else [(x, y)]
        else []))) :
    (∃ i : ℕ, p.1 = centerC ox cs i) ∧ (∃ j : ℕ, p.2 = centerC oy cs j) ∧
    distLt (p.1 - sx) (p.2 - sy) 2 1 cs = false := by
  simp only [List.mem_flatMap, List.mem_range] at hp
  obtain ⟨row, _, col, _, hmem⟩ := hp
  by_cases h1 : 3 ≤ wallCount (getCell g row col)
  · rw [if_pos h1] at hmem
    by_cases h2 : (distLt ((ox + 2*(col:ℤ)*cs + cs) - sx) ((oy + 2*(row:ℤ)*cs + cs) - sy) 2 1 cs
        || distLt ((ox + 2*(col:ℤ)*cs + cs) - gx) ((oy + 2*(row:ℤ)*cs + cs) - gy) 2 1 cs) = true
    · rw [if_pos h2] at hmem; simp at hmem
    · rw [if_neg h2] at hmem
      by_cases h3 : (coins.any (fun c =>
          distLt ((ox + 2*(col:ℤ)*cs + cs) - c.x) ((oy + 2*(row:ℤ)*cs + cs) - c.y) 1 2 cs)) = true
      · rw [if_pos h3] at hmem; simp at hmem
      · rw [if_neg h3] at hmem
        by_cases h4 : (holes.any (fun h =>
            distLt ((ox + 2*(col:ℤ)*cs + cs) - h.x) ((oy + 2*(row:ℤ)*cs + cs) - h.y) 1 2 cs)) = true
        · rw [if_pos h4] at hmem; simp at hmem
        · rw [if_neg h4] at hmem
          simp only [List.mem_singleton] at hmem
          subst hmem
          refine ⟨⟨col, rfl⟩, ⟨row, rfl⟩, ?_⟩
          simp only [Bool.or_eq_true, not_or, Bool.not_eq_true] at h2
          exact h2.1
  · rw [if_neg h1] at hmem; simp at hmem

theorem life_spot_bound {cs ox oy sx sy : ℤ} {spot : ℤ × ℤ}
    (hcs : 50 ≤ cs) (hoy : (oy + cs) % 2 = 0)
    (hi : ∃ i : ℕ, spot.1 = centerC ox cs i) (hj : ∃ j : ℕ, spot.2 = centerC oy cs j)
    (hchkF : distLt (spot.1 - sx) (spot.2 - sy) 2 1 cs = false) :
    9*(cs*cs) ≤ sep2 (roundD spot.1) (roundD spot.2) sx sy := by
  obtain ⟨i, hi⟩ := hi
  obtain ⟨j, hj⟩ := hj
  set δ := (ox + cs) % 2 with hδ
  have hδ0 : 0 ≤ δ := by omega
  have hδ1 : δ ≤ 1 := by omega
  have hpre := distLt_false_iff.mp hchkF
  have hry : roundD spot.2 = spot.2 := by
    rw [hj]
    exact roundD_even (by rw [centerC_mod]; omega)
  have hrx : roundD spot.1 = spot.1 + δ := by
    rw [hi, roundD_centerC, hδ, ← hi]
  have hpre2 : (4*cs)*(4*cs) ≤
      (spot.1 - sx)*(spot.1 - sx) + (spot.2 - sy)*(spot.2 - sy) := by
    have h16 : (4*cs)*(4*cs) = 4*(2*2)*(cs*cs) := by ring
    rw [h16]
    linarith [hpre]
  have hstep := c9_shift_sq (by omega) hδ0 hδ1 hpre2
  have hfinal := c9_ge9_of_shift hcs hstep
  unfold sep2
  rw [hrx, hry]
  have hre : spot.1 + δ - sx = (spot.1 - sx) + δ := by ring
  rw [hre]
  exact hfinal

theorem generateExtraLives_facts (levelNum cols rows : ℕ) (cs ox oy sx sy gx gy : ℤ)
    (g : Grid) (coins : List Pt) (holes : List Hole) (seed : ℕ)
    (hcs : 50 ≤ cs) (hoy : (oy + cs) % 2 = 0) :
    ∀ e ∈ (generateExtraLives levelNum cols rows cs ox oy sx sy gx gy g coins holes seed).1,
      9*(cs*cs) ≤ sep2 e.x e.y sx sy := by
  unfold generateExtraLives
  dsimp only
  split
  · simp
  · split
    · simp
    · rename_i heq0 d0 ds heq
      intro e he
      simp only [List.mem_singleton] at he
      subst he
      have hlen : 0 < (d0 :: ds).length := by simp
      have hspot := getD_mem_of_pos (d0 :: ds) ((0 : ℤ), (0 : ℤ))
        (drawGtPermille seed (min 300 (50 + 3 * levelNum))).2 hlen
      rw [← heq] at hspot
      obtain ⟨h1, h2, h3⟩ := mem_lifeCands hspot
      exact life_spot_bound hcs hoy h1 h2 h3

/-! ### Per-level structural facts and the amended claim -/

theorem levelCellSize_facts (lvl : ℕ) :
    50 ≤ levelCellSize lvl ∧ levelCellSize lvl % 2 = 0 := by
  unfold levelCellSize getDifficulty
  split_ifs <;> exact ⟨by decide, by decide⟩

theorem levelHeight_even (lvl : ℕ) : levelHeight lvl % 2 = 0 := by
  unfold levelHeight getDifficulty
  split_ifs <;> decide

theorem oy_parity (lvl : ℕ) :
    ((levelHeight lvl : ℤ) - (levelRows lvl : ℤ) * (levelCellSize lvl : ℤ)
      + (levelCellSize lvl : ℤ)) % 2 = 0 := by
  have h1 := levelHeight_even lvl
  have h2 := (levelCellSize_facts lvl).2
  obtain ⟨k, hk⟩ : ∃ k : ℤ, (levelCellSize lvl : ℤ) = 2*k :=
    ⟨(levelCellSize lvl : ℤ) / 2, by omega⟩
  rw [hk]
  have h3 : (levelRows lvl : ℤ) * (2*k) = 2*((levelRows lvl : ℤ) * k) := by ring
  rw [h3]
  omega

theorem start_x_center (o c : ℤ) : isCenter o c (o + c) :=
  ⟨0, by unfold centerC; push_cast; ring⟩

theorem start_y_center (o c : ℤ) (rows : ℕ) (hr : 1 ≤ rows) :
    isCenter o c (o + 2*((rows : ℤ) - 1)*c + c) := by
  refine ⟨rows - 1, ?_⟩
  unfold centerC
  have h : ((rows - 1 : ℕ) : ℤ) = (rows : ℤ) - 1 := by omega
  rw [h]

/-- **C9 (amended).**  Placement validity, in the exact doubled-coordinate
embedding (`sep2` is the squared distance of doubled coordinates, so a
plain-pixel distance of `t` corresponds to `sep2 = (2t)^2`, and a
threshold `k*cellSize` to `(2k)^2*cellSize^2`).  For every level
`n+1`: holes, extra lives, powerups and bounce pads are at least
`1.5*cellSize` away from the start point; coins are only guaranteed to be
at least `cellSize - 1/2` away (the code checks a plain `1*cellSize`
radius before rounding, not `1.5*cellSize`); pairwise, holes are at least
`1*cellSize` apart, coins at least `0.8*cellSize`, powerups at least
`1.5*cellSize` and bounce pads at least `2*cellSize`. -/
theorem c9_amended_placement (n : ℕ) :
    (∀ h ∈ (generateLevel (n+1)).holes,
      9*((levelCellSize (n+1) : ℤ)*(levelCellSize (n+1) : ℤ)) ≤
        sep2 h.x h.y (generateLevel (n+1)).start.x (generateLevel (n+1)).start.y) ∧
    ((generateLevel (n+1)).holes.Pairwise (fun a b =>
      4*((levelCellSize (n+1) : ℤ)*(levelCellSize (n+1) : ℤ)) ≤ sep2 a.x a.y b.x b.y)) ∧
    (∀ c ∈ (generateLevel (n+1)).coins,
      (2*(levelCellSize (n+1) : ℤ)-1)*(2*(levelCellSize (n+1) : ℤ)-1) ≤
        sep2 c.x c.y (generateLevel (n+1)).start.x (generateLevel (n+1)).start.y) ∧
    ((generateLevel (n+1)).coins.Pairwise (fun a b =>
      64*((levelCellSize (n+1) : ℤ)*(levelCellSize (n+1) : ℤ)) ≤ 25 * sep2 a.x a.y b.x b.y)) ∧
    (∀ e ∈ (generateLevel (n+1)).extraLives,
      9*((levelCellSize (n+1) : ℤ)*(levelCellSize (n+1) : ℤ)) ≤
        sep2 e.x e.y (generateLevel (n+1)).start.x (generateLevel (n+1)).start.y) ∧
    (∀ p ∈ (generateLevel (n+1)).powerups,
      9*((levelCellSize (n+1) : ℤ)*(levelCellSize (n+1) : ℤ)) ≤
        sep2 p.x p.y (generateLevel (n+1)).start.x (generateLevel (n+1)).start.y) ∧
    ((generateLevel (n+1)).powerups.Pairwise (fun a b =>
      9*((levelCellSize (n+1) : ℤ)*(levelCellSize (n+1) : ℤ)) ≤ sep2 a.x a.y b.x b.y)) ∧
    (∀ p ∈ (generateLevel (n+1)).bouncePads,
      9*((levelCellSize (n+1) : ℤ)*(levelCellSize (n+1) : ℤ)) ≤
        sep2 p.x p.y (generateLevel (n+1)).start.x (generateLevel (n+1)).start.y) ∧
    ((generateLevel (n+1)).bouncePads.Pairwise (fun a b =>
      16*((levelCellSize (n+1) : ℤ)*(levelCellSize (n+1) : ℤ)) ≤ sep2 a.x a.y b.x b.y)) := by
  have hd := level_dims_pos (n+1)
  have hcsf := levelCellSize_facts (n+1)
  have hcs : (50:ℤ) ≤ (levelCellSize (n+1) : ℤ) := by exact_mod_cast hcsf.1
  have hoy := oy_parity (n+1)
  unfold generateLevel generateLevelFrom
  dsimp only
  refine ⟨?_, ?_, ?_, ?_, ?_, ?_, ?_, ?_, ?_⟩
  · exact (generateHoles_facts _ _ _ _ _ _ _ _ _ _ _).1
  · exact (generateHoles_facts _ _ _ _ _ _ _ _ _ _ _).2
  · exact fun c hc => ((generateCoins_facts _ _ _ _ _ _ _ _ _ _ _ _ hcs hoy).1 c hc).2.2
  · exact (generateCoins_facts _ _ _ _ _ _ _ _ _ _ _ _ hcs hoy).2
  · exact generateExtraLives_facts _ _ _ _ _ _ _ _ _ _ _ _ _ _ hcs hoy
  · exact fun p hp => ((generatePowerups_facts _ _ _ _ _ _ _ _ _ _ _ _ hcs hoy).1 p hp).2.2
  · exact (generatePowerups_facts _ _ _ _ _ _ _ _ _ _ _ _ hcs hoy).2
  · exact fun p hp => ((generateBouncePads_facts _ _ _ _ _ _ _ _ _ _ _ _ hcs hoy
      (start_x_center _ _) (start_y_center _ _ _ hd.2)).1 p hp).2.2
  · exact (generateBouncePads_facts _ _ _ _ _ _ _ _ _ _ _ _ hcs hoy
      (start_x_center _ _) (start_y_center _ _ _ hd.2)).2

/-- Witness for `c9_amended_placement`: the single hole of level 2 sits at
(doubled) position (164, 284); its squared doubled distance to the start
(164, 692) is `408^2 = 166464 ≥ 9*68^2 = 41616`. -/
theorem c9_amended_placement_witness :
    9*((levelCellSize 2 : ℤ)*(levelCellSize 2 : ℤ)) ≤
      sep2 (164:ℤ) (284:ℤ) (generateLevel 2).start.x (generateLevel 2).start.y :=
  (c9_amended_placement 1).1 ⟨164, 284, 12⟩ (by decide)

/-- **C9, counterexample.**  The claim also asserts that no **coin** lies
within `1.5*cellSize` of the start, but the code only enforces a
`1*cellSize` radius for coins: in level 2 (cellSize 68) the coin at
(150, 278) is at distance `sqrt(2)*68 ≈ 96.2 < 1.5*68 = 102` from the
start (82, 346) — in doubled coordinates the coin (300, 556) and start
(164, 692) at squared distance `36992 < (3*68)^2 = 41616`. -/
theorem c9_counterexample :
    ((generateLevel 2).coins.any (fun c =>
      distLt (c.x - (generateLevel 2).start.x) (c.y - (generateLevel 2).start.y)
        3 2 ((levelCellSize 2 : ℕ) : ℤ))) = true := by
  decide

end GyroMaze
